import Mathlib

/-!
FilesTransfer: date extraction, move and walk step.

A shallow embedding of `main.go` (functions `extractDate`, `moveFile` and the
callback that `processDirectory` hands to `filepath.Walk`), together with the
parts of the Go runtime and standard library these functions rely on
(UTF-8 decoding of a `range` loop, `string(rune)`, `strconv.Atoi`, and a small
model of the file system calls).
-/

namespace FilesTransfer

/-! ## Go strings and UTF-8 -/

/-- A Go string is an immutable sequence of bytes; a byte is a natural number below 256. -/
abbrev GoString := List Nat

/-- The rune `utf8.RuneError` (U+FFFD). -/
def runeError : Nat := 0xFFFD

/-- The conversion `string(r)` of a rune to a Go string: the UTF-8 encoding of the rune,
and the encoding of U+FFFD for a surrogate or a value past U+10FFFF. -/
def encodeRune (r : Nat) : GoString :=
  if r < 0x80 then [r]
  else if r < 0x800 then [0xC0 + r / 64, 0x80 + r % 64]
  else if (0xD800 ≤ r ∧ r < 0xE000) ∨ 0x10FFFF < r then [0xEF, 0xBF, 0xBD]
  else if r < 0x10000 then [0xE0 + r / 4096, 0x80 + r / 64 % 64, 0x80 + r % 64]
  else [0xF0 + r / 262144, 0x80 + r / 4096 % 64, 0x80 + r / 64 % 64, 0x80 + r % 64]

/-- The bytes of a string literal of the Go source (Go source text is UTF-8). -/
def utf8 (s : String) : GoString :=
  s.toList.flatMap (fun c => encodeRune c.toNat)

/-- The width that the table `first` of package `utf8` gives a leading byte: 1 for ASCII,
2 to 4 for the leading byte of a longer encoding, 0 for a byte that starts none. -/
def firstWidth (s0 : Nat) : Nat :=
  if s0 < 0x80 then 1
  else if s0 < 0xC2 then 0
  else if s0 < 0xE0 then 2
  else if s0 < 0xF0 then 3
  else if s0 < 0xF5 then 4
  else 0

/-- The lowest second byte the table `acceptRanges` allows after the leading byte `s0`. -/
def acceptLo (s0 : Nat) : Nat :=
  if s0 = 0xE0 then 0xA0 else if s0 = 0xF0 then 0x90 else 0x80

/-- The highest second byte the table `acceptRanges` allows after the leading byte `s0`. -/
def acceptHi (s0 : Nat) : Nat :=
  if s0 = 0xED then 0x9F else if s0 = 0xF4 then 0x8F else 0xBF

/-- The function `utf8.DecodeRuneInString`: the first rune of `s` and its width in bytes.
An empty string gives `(RuneError, 0)`, an invalid or truncated encoding `(RuneError, 1)`. -/
def decodeRune (s : GoString) : Nat × Nat :=
  match s with
  | [] => (runeError, 0)
  | s0 :: rest =>
    if s0 < 0x80 then (s0, 1)
    else if firstWidth s0 = 0 then (runeError, 1)
    else if s.length < firstWidth s0 then (runeError, 1)
    else
      match rest with
      | [] => (runeError, 1)
      | s1 :: rest1 =>
        if s1 < acceptLo s0 ∨ acceptHi s0 < s1 then (runeError, 1)
        else if firstWidth s0 ≤ 2 then (s0 % 32 * 64 + s1 % 64, 2)
        else
          match rest1 with
          | [] => (runeError, 1)
          | s2 :: rest2 =>
            if s2 < 0x80 ∨ 0xBF < s2 then (runeError, 1)
            else if firstWidth s0 ≤ 3 then (s0 % 16 * 4096 + s1 % 64 * 64 + s2 % 64, 3)
            else
              match rest2 with
              | [] => (runeError, 1)
              | s3 :: _ =>
                if s3 < 0x80 ∨ 0xBF < s3 then (runeError, 1)
                else (s0 % 8 * 262144 + s1 % 64 * 4096 + s2 % 64 * 64 + s3 % 64, 4)

/-- The runes a `for _, ch := range s` loop yields, with `fuel` bounding the number of
iterations: each iteration decodes one rune and advances by its width. -/
def rangeRunes : Nat → GoString → List Nat
  | 0, _ => []
  | _ + 1, [] => []
  | fuel + 1, b :: bs =>
    (decodeRune (b :: bs)).1 :: rangeRunes fuel ((b :: bs).drop (decodeRune (b :: bs)).2)

/-- The runes of `for _, ch := range s`. Every iteration consumes at least one byte, so
`s.length` iterations always reach the end of the string. -/
def runes (s : GoString) : List Nat :=
  rangeRunes s.length s

/-! ## strconv.Atoi -/

/-- The two errors of package `strconv`: `ErrSyntax` and `ErrRange`. -/
inductive NumError where
  | errSyntax
  | errRange
  deriving DecidableEq, Repr

/-- The constant `strconv.IntSize`, the width of `int`, on a 64-bit target. -/
def intSize : Nat := 64

/-- The loop of `strconv.ParseUint(s, 10, intSize)`: `n` is the `uint64` accumulator. A byte
that is not a decimal digit is a syntax error; an accumulator that would leave the
`uint64` range, or pass `maxVal`, is a range error. -/
def parseUintLoop (maxVal : Nat) : GoString → Nat → Except NumError Nat
  | [], n => .ok n
  | c :: cs, n =>
    if 0x30 ≤ c ∧ c ≤ 0x39 then
      if n ≥ (2 ^ 64 - 1) / 10 + 1 then .error .errRange
      else
        let n10 := n * 10 % 2 ^ 64
        let n1 := (n10 + (c - 0x30)) % 2 ^ 64
        if n1 < n10 ∨ n1 > maxVal then .error .errRange
        else parseUintLoop maxVal cs n1
    else .error .errSyntax

/-- The call `strconv.ParseUint(s, 10, intSize)`. -/
def parseUint (s : GoString) : Except NumError Nat :=
  if s = [] then .error .errSyntax
  else parseUintLoop (2 ^ intSize - 1) s 0

/-- The call `strconv.ParseInt(s, 10, 0)`: an optional sign, then `ParseUint`, then the
check against the range of `int`. -/
def parseInt (s : GoString) : Except NumError Int :=
  if s = [] then .error .errSyntax
  else
    let neg := s.head? = some 0x2D
    let body := if s.head? = some 0x2B ∨ s.head? = some 0x2D then s.tail else s
    match parseUint body with
    | .error .errSyntax => .error .errSyntax
    | r =>
      let un : Nat := match r with
        | .ok n => n
        | .error _ => 2 ^ intSize - 1
      let cutoff : Nat := 2 ^ (intSize - 1)
      if ¬ neg ∧ un ≥ cutoff then .error .errRange
      else if neg ∧ un > cutoff then .error .errRange
      else .ok (if neg then - (un : Int) else (un : Int))

/-- The call `strconv.Atoi(s)`. Its fast path for short inputs computes what
`ParseInt(s, 10, 0)` computes, which is its slow path. -/
def atoi (s : GoString) : Except NumError Int :=
  parseInt s

/-! ## extractDate -/

/-- The errors `extractDate` returns: the invalid template character (the text of
`templateChar`), or the field whose `strconv.Atoi` failed, with that error. -/
inductive ExtractError where
  | invalidTemplateChar (templateChar : GoString)
  | parseYear (e : NumError)
  | parseMonth (e : NumError)
  | parseDay (e : NumError)
  deriving DecidableEq, Repr

/-- What a call of `extractDate` does: return `(year, month, day, nil)`, return an error,
or stop with the run-time panic of an out-of-range index `fileName[fileIndex]`. -/
inductive ExtractResult where
  | ok (year month day : GoString)
  | error (e : ExtractError)
  | panic
  deriving DecidableEq, Repr

/-- The local state of `extractDate`: the three builders and `fileIndex`. -/
structure Builders where
  yearPart : GoString
  monthPart : GoString
  dayPart : GoString
  fileIndex : Nat
  deriving DecidableEq, Repr

/-- How the template loop of `extractDate` ends. -/
inductive LoopResult where
  | finished (b : Builders)
  | failed (e : ExtractError)
  | panic
  deriving DecidableEq, Repr

/-- The loop `for _, ch := range template` of `extractDate` over the runes of the template. -/
def extractLoop (fileName : GoString) : List Nat → Builders → LoopResult
  | [], b => .finished b
  | ch :: rest, b =>
    let templateChar := encodeRune ch
    if templateChar = utf8 "Г" then
      match fileName[b.fileIndex]? with
      | none => .panic
      | some c =>
        extractLoop fileName rest
          { b with yearPart := b.yearPart ++ [c], fileIndex := b.fileIndex + 1 }
    else if templateChar = utf8 "М" then
      match fileName[b.fileIndex]? with
      | none => .panic
      | some c =>
        extractLoop fileName rest
          { b with monthPart := b.monthPart ++ [c], fileIndex := b.fileIndex + 1 }
    else if templateChar = utf8 "Д" then
      match fileName[b.fileIndex]? with
      | none => .panic
      | some c =>
        extractLoop fileName rest
          { b with dayPart := b.dayPart ++ [c], fileIndex := b.fileIndex + 1 }
    else if templateChar = utf8 "?" then
      extractLoop fileName rest { b with fileIndex := b.fileIndex + 1 }
    else .failed (.invalidTemplateChar templateChar)

/-- The function `extractDate(fileName, template)`. -/
def extractDate (fileName template : GoString) : ExtractResult :=
  match extractLoop fileName (runes template) ⟨[], [], [], 0⟩ with
  | .panic => .panic
  | .failed e => .error e
  | .finished b =>
    match atoi b.yearPart with
    | .error e => .error (.parseYear e)
    | .ok _ =>
      match atoi b.monthPart with
      | .error e => .error (.parseMonth e)
      | .ok _ =>
        match atoi b.dayPart with
        | .error e => .error (.parseDay e)
        | .ok _ => .ok b.yearPart b.monthPart b.dayPart

/-! ## path/filepath, for `/`-separated paths -/

/-- The elements of a path between its separators (`/`). -/
def splitSlash : GoString → List GoString
  | [] => [[]]
  | c :: cs =>
    if c = 0x2F then [] :: splitSlash cs
    else
      match splitSlash cs with
      | [] => [[c]]
      | el :: els => (c :: el) :: els

/-- What `filepath.Clean` does with one element of the path, `kept` being the elements
written so far: an empty element and `.` are dropped; `..` takes back the last element
written, unless there is none or it is a `..` itself, in which case a path that is not
rooted keeps the `..`; any other element is written. -/
def cleanElem (rooted : Bool) (kept : List GoString) (el : GoString) : List GoString :=
  if el = [] ∨ el = utf8 "." then kept
  else if el = utf8 ".." then
    match kept.getLast? with
    | some top => if top = utf8 ".." then kept ++ [el] else kept.dropLast
    | none => if rooted then kept else kept ++ [el]
  else kept ++ [el]

/-- The function `filepath.Clean` for `/`-separated paths. -/
def filepathClean (path : GoString) : GoString :=
  if path = [] then utf8 "."
  else
    let rooted : Bool := path.head? = some 0x2F
    let kept := (splitSlash path).foldl (cleanElem rooted) []
    let out := (if rooted then [0x2F] else []) ++ List.intercalate [0x2F] kept
    if out = [] then utf8 "." else out

/-- The function `filepath.Join`: the elements from the first non-empty one on, joined
with `/` and cleaned; the empty string when every element is empty. -/
def filepathJoin (elem : List GoString) : GoString :=
  match elem.dropWhile (fun e => e.isEmpty) with
  | [] => []
  | rest => filepathClean (List.intercalate [0x2F] rest)

/-- The text after the last `/` of a path. -/
def lastComponent (p : GoString) : GoString :=
  p.foldl (fun acc c => if c = 0x2F then [] else acc ++ [c]) []

/-- The function `filepath.Base` for `/`-separated paths: the last element of the path,
trailing separators put aside; `.` for the empty path and `/` for a path of separators. -/
def filepathBase (path : GoString) : GoString :=
  if path = [] then utf8 "."
  else
    let stripped := (path.reverse.dropWhile (fun c => c = 0x2F)).reverse
    if lastComponent stripped = [] then [0x2F] else lastComponent stripped


/-! ## File system calls -/

/-- An error of a file system call: `notExist` is what `os.IsNotExist` recognises, `other`
stands for every other error (permission denied, I/O error, ...). -/
inductive OsError where
  | notExist
  | other (code : Nat)
  deriving DecidableEq, Repr

/-- The predicate `os.IsNotExist(err)` on a non-nil error. -/
def OsError.isNotExist : OsError → Bool
  | .notExist => true
  | .other _ => false

/-- What a path names: a regular file with its bytes, or a directory. -/
inductive Node where
  | file (content : GoString)
  | dir
  deriving DecidableEq, Repr

/-- The state of the file system: what each path names, if anything. -/
abbrev FileSystem := GoString → Option Node

/-- The file system with path `p` naming `v` (`none` removes the entry). -/
def FileSystem.set (fs : FileSystem) (p : GoString) (v : Option Node) : FileSystem :=
  fun q => if q = p then v else fs q

/-- The platform the program runs on: the functions of `path/filepath` it calls, the
directories that lie above a path (outermost first), and the failures the operating system
injects into each call (permissions, I/O errors). Every field is arbitrary: a statement
proved for all platforms holds for the real one. -/
structure Platform where
  join : List GoString → GoString
  base : GoString → GoString
  parents : GoString → List GoString
  openFault : GoString → Option Nat
  statFault : GoString → Option Nat
  createFault : GoString → Option Nat
  copyFault : GoString → GoString → Option (Nat × Nat)
  removeFault : GoString → Option Nat
  mkdirAllFault : GoString → Option (Nat × Nat)

/-- The call `os.Open(path)`: fails when the platform says so or nothing is there. -/
def osOpen (pf : Platform) (fs : FileSystem) (path : GoString) : Except OsError Node :=
  match pf.openFault path with
  | some code => .error (.other code)
  | none =>
    match fs path with
    | none => .error .notExist
    | some n => .ok n

/-- The call `os.Stat(path)`. -/
def osStat (pf : Platform) (fs : FileSystem) (path : GoString) : Except OsError Node :=
  match pf.statFault path with
  | some code => .error (.other code)
  | none =>
    match fs path with
    | none => .error .notExist
    | some n => .ok n

/-- The call `os.Create(path)`: creates the file, or truncates the one there. -/
def osCreate (pf : Platform) (fs : FileSystem) (path : GoString) :
    FileSystem × Option OsError :=
  match pf.createFault path with
  | some code => (fs, some (.other code))
  | none =>
    match fs path with
    | some .dir => (fs, some (.other 21))
    | _ => (fs.set path (some (.file [])), none)

/-- The call `io.Copy(targetFile, sourceFile)` on the files opened at `dst` (just created,
empty) and `src`: all bytes are written, or, on a fault, only the first `written` ones.
Reading a directory fails. -/
def ioCopy (pf : Platform) (fs : FileSystem) (dst src : GoString) :
    FileSystem × Option OsError :=
  match fs src with
  | some (.file bytes) =>
    match pf.copyFault src dst with
    | some (written, code) => (fs.set dst (some (.file (bytes.take written))), some (.other code))
    | none => (fs.set dst (some (.file bytes)), none)
  | some .dir => (fs, some (.other 21))
  | none => (fs, some .notExist)

/-- The call `os.Remove(path)`. -/
def osRemove (pf : Platform) (fs : FileSystem) (path : GoString) :
    FileSystem × Option OsError :=
  match pf.removeFault path with
  | some code => (fs, some (.other code))
  | none =>
    match fs path with
    | none => (fs, some .notExist)
    | some _ => (fs.set path none, none)

/-- The file system with a directory at each path of `ps` that named nothing. -/
def mkdirs (fs : FileSystem) (ps : List GoString) : FileSystem :=
  fun q => if q ∈ ps ∧ fs q = none then some .dir else fs q

/-- Whether a path names a regular file. -/
def isFile (fs : FileSystem) (p : GoString) : Bool :=
  match fs p with
  | some (.file _) => true
  | _ => false

/-- The call `os.MkdirAll(path, 0755)`: creates `path` and the missing directories above
it; on a fault only the first `made` of them; fails when one of them is a regular file. -/
def osMkdirAll (pf : Platform) (fs : FileSystem) (path : GoString) :
    FileSystem × Option OsError :=
  let chain := pf.parents path ++ [path]
  match pf.mkdirAllFault path with
  | some (made, code) => (mkdirs fs (chain.take made), some (.other code))
  | none =>
    if chain.any (isFile fs) then (fs, some (.other 20))
    else (mkdirs fs chain, none)

/-! ## moveFile -/

/-- The errors `moveFile` returns, one for each `fmt.Errorf` of its body. -/
inductive MoveError where
  | openFailed (e : OsError)
  | targetExists (targetPath : GoString)
  | statFailed (e : OsError)
  | createFailed (e : OsError)
  | copyFailed (e : OsError)
  | removeFailed (e : OsError)
  deriving DecidableEq, Repr

/-- The function `moveFile(sourcePath, targetPath)`: the file system it leaves and the
error it returns (`none` is `nil`). -/
def moveFile (pf : Platform) (fs : FileSystem) (sourcePath targetPath : GoString) :
    FileSystem × Option MoveError :=
  match osOpen pf fs sourcePath with
  | .error e => (fs, some (.openFailed e))
  | .ok _ =>
    match osStat pf fs targetPath with
    | .ok _ => (fs, some (.targetExists targetPath))
    | .error e =>
      if ¬ e.isNotExist then (fs, some (.statFailed e))
      else
        match osCreate pf fs targetPath with
        | (fs1, some e1) => (fs1, some (.createFailed e1))
        | (fs1, none) =>
          match ioCopy pf fs1 targetPath sourcePath with
          | (fs2, some e2) => (fs2, some (.copyFailed e2))
          | (fs2, none) =>
            match osRemove pf fs2 sourcePath with
            | (fs3, some e3) => (fs3, some (.removeFailed e3))
            | (fs3, none) => (fs3, none)

/-! ## processDirectory -/

/-- The `os.FileInfo` of a visited entry, as far as the program reads it. -/
structure FileInfo where
  name : GoString
  size : Int
  isDir : Bool
  deriving DecidableEq, Repr

/-- The lines the program writes to its logger, one constructor for each `log(...)` call of
`processDirectory` (the time stamp in front of a line is left out). -/
inductive LogEvent where
  | extractFailed (name : GoString) (e : ExtractError)
  | mkdirFailed (folder : GoString) (e : OsError)
  | folderCreated (folder : GoString)
  | moveFailed (path targetPath : GoString) (e : MoveError)
  | moved (path targetPath : GoString)
  deriving DecidableEq, Repr

/-- What one call of the walk function does: return, leaving a file system, an error
(`none` is `nil`) and log lines; or stop with the panic of `extractDate`. -/
inductive StepResult where
  | returned (fs : FileSystem) (err : Option OsError) (log : List LogEvent)
  | panic

/-- The condition `_, err := os.Stat(path); os.IsNotExist(err)`; `os.IsNotExist(nil)` is
false. -/
def statIsNotExist (pf : Platform) (fs : FileSystem) (path : GoString) : Bool :=
  match osStat pf fs path with
  | .error e => e.isNotExist
  | .ok _ => false

/-- The folder name `fmt.Sprintf("%s-%s-%s", day, month, year)`. -/
def dateFolder (year month day : GoString) : GoString :=
  day ++ utf8 "-" ++ month ++ utf8 "-" ++ year

/-- The function literal `processDirectory` passes to `filepath.Walk`, called for the entry
at `path` with its `info` and the error `err` of the traversal (`none` is `nil`). -/
def processDirectoryStep (pf : Platform) (sourceDir targetBaseDir : GoString)
    (minFileSize : Int) (template : GoString) (fs : FileSystem)
    (path : GoString) (info : FileInfo) (err : Option OsError) : StepResult :=
  match err with
  | some e => .returned fs (some e) []
  | none =>
    if info.isDir = false ∧ info.size ≥ minFileSize then
      match extractDate info.name template with
      | .panic => .panic
      | .error e => .returned fs none [.extractFailed info.name e]
      | .ok year month day =>
        let subFolder := pf.base sourceDir
        let dateFolderPath := pf.join [targetBaseDir, dateFolder year month day, subFolder]
        let targetPath := pf.join [dateFolderPath, info.name]
        if statIsNotExist pf fs dateFolderPath then
          match osMkdirAll pf fs dateFolderPath with
          | (fs1, some e) => .returned fs1 (some e) [.mkdirFailed dateFolderPath e]
          | (fs1, none) =>
            match moveFile pf fs1 path targetPath with
            | (fs2, some e) =>
              .returned fs2 none [.folderCreated dateFolderPath, .moveFailed path targetPath e]
            | (fs2, none) =>
              .returned fs2 none [.folderCreated dateFolderPath, .moved path targetPath]
        else
          match moveFile pf fs path targetPath with
          | (fs2, some e) => .returned fs2 none [.moveFailed path targetPath e]
          | (fs2, none) => .returned fs2 none [.moved path targetPath]
    else .returned fs none []


/-- One call that `filepath.Walk` makes of the walk function: the path of the entry, its
`os.FileInfo`, and the error the traversal met at it (`none` is `nil`). -/
structure Visit where
  path : GoString
  info : FileInfo
  err : Option OsError

/-- The log lines `log` followed by what the rest of the walk does. -/
def StepResult.after (log : List LogEvent) : StepResult → StepResult
  | .returned fs err rest => .returned fs err (log ++ rest)
  | .panic => .panic

/-- The function `processDirectory`, for the calls `visits` that
`filepath.Walk(sourceDir, ...)` makes of the walk function, in their order: each call runs on
the file system the earlier calls left, and, as `filepath.Walk` documents, the first call
that returns a non-nil error ends the walk, which returns that error. -/
def processDirectory (pf : Platform) (sourceDir targetBaseDir : GoString)
    (minFileSize : Int) (template : GoString) : FileSystem → List Visit → StepResult
  | fs, [] => .returned fs none []
  | fs, v :: vs =>
    match processDirectoryStep pf sourceDir targetBaseDir minFileSize template fs
        v.path v.info v.err with
    | .panic => .panic
    | .returned fs1 (some e) log => .returned fs1 (some e) log
    | .returned fs1 none log =>
      (processDirectory pf sourceDir targetBaseDir minFileSize template fs1 vs).after log

/-! ## Words of the specification -/

/-- Whether a rune is one of the four template markers Г, М, Д and ?. -/
def isMarker (r : Nat) : Bool :=
  r = 0x413 || r = 0x41C || r = 0x414 || r = 0x3F

/-- The items of `items` that stand at the positions where the template has the rune
`marker`, left to right (position `k` of the template against position `k` of `items`). -/
def charsAt {α : Type} (marker : Nat) (templateRunes : List Nat) (items : List α) : List α :=
  ((templateRunes.zip items).filter (fun p => p.1 = marker)).map Prod.snd

/-- The text of the filename's characters at the positions of a marker, positions counted
in characters: what the specification says a date field holds. -/
def fieldChars (marker : Nat) (fileName template : GoString) : GoString :=
  (charsAt marker (runes template) (runes fileName)).flatMap encodeRune

/-- Whether an error of `extractDate` is one of the three date-parse errors. -/
def ExtractError.isDateParse : ExtractError → Bool
  | .invalidTemplateChar _ => false
  | _ => true

/-- Whether a byte is a decimal digit. -/
def isDigit (c : Nat) : Bool :=
  0x30 ≤ c && c ≤ 0x39

/-- A non-empty string of decimal digits, no sign. -/
def isUnsignedDecimal (s : GoString) : Bool :=
  !s.isEmpty && s.all isDigit

/-- The digits of a string, once a single leading `+` or `-` is taken off. -/
def digitsOf (s : GoString) : GoString :=
  match s with
  | 0x2B :: t => t
  | 0x2D :: t => t
  | _ => s

/-- The number a string of decimal digits denotes. -/
def decimalValue (ds : GoString) : Nat :=
  ds.foldl (fun n c => n * 10 + (c - 0x30)) 0

/-- The integer a signed decimal string denotes. -/
def signedValue (s : GoString) : Int :=
  match s with
  | 0x2D :: t => - (decimalValue t : Int)
  | _ => (decimalValue (digitsOf s) : Int)

/-- A string `strconv.Atoi` accepts: an optional single sign, then one or more decimal
digits, the integer denoted lying in the range of `int`. -/
def isIntText (s : GoString) : Prop :=
  isUnsignedDecimal (digitsOf s) = true ∧
    - (2 : Int) ^ (intSize - 1) ≤ signedValue s ∧ signedValue s < (2 : Int) ^ (intSize - 1)

/-- A name that `filepath.Clean` keeps as it is: not empty, without a separator, and
neither `.` nor `..`. -/
def isPlainName (n : GoString) : Prop :=
  n ≠ [] ∧ 0x2F ∉ n ∧ n ≠ utf8 "." ∧ n ≠ utf8 ".."

/-- A path that ends with the plain name `n` as an element of its own. -/
def endsWithName (p n : GoString) : Prop :=
  p = n ∨ ∃ x, p = x ++ 0x2F :: n

/-! ## A platform and a file system for the examples -/

/-- The directories above a path: its prefixes that end before a `/`, outermost first. -/
def dirsAbove (p : GoString) : List GoString :=
  ((List.range p.length).filter (fun i => 0 < i ∧ p[i]? = some 0x2F)).map (fun i => p.take i)

/-- A platform for the examples: `filepath.Join` and `filepath.Base` for `/`-separated
paths, and no call is made to fail. -/
def examplePlatform : Platform where
  join := filepathJoin
  base := filepathBase
  parents := dirsAbove
  openFault := fun _ => none
  statFault := fun _ => none
  createFault := fun _ => none
  copyFault := fun _ _ => none
  removeFault := fun _ => none
  mkdirAllFault := fun _ => none

/-- A file system for the examples: the files `in/1/AB2024C05D17` and
`in/1/README-FIRST.txt` of three bytes, the small file `in/1/notes`, and the directories
`in`, `in/1` and `out`. -/
def exampleFS : FileSystem := fun p =>
  if p = utf8 "in/1/AB2024C05D17" then some (.file [7, 8, 9])
  else if p = utf8 "in/1/notes" then some (.file [1])
  else if p = utf8 "in/1/README-FIRST.txt" then some (.file [4, 5, 6])
  else if p = utf8 "in" ∨ p = utf8 "in/1" ∨ p = utf8 "out" then some .dir
  else none

/-- The `os.FileInfo` of the example file `in/1/AB2024C05D17`. -/
def exampleInfo : FileInfo :=
  { name := utf8 "AB2024C05D17", size := 3, isDir := false }

/-- The example platform with every `os.MkdirAll` failing (error code 13) before it makes
a directory. -/
def readOnlyPlatform : Platform :=
  { examplePlatform with mkdirAllFault := fun _ => some (0, 13) }

/-- The example platform with every `io.Copy` failing (error code 5) after two bytes. -/
def brokenCopyPlatform : Platform :=
  { examplePlatform with copyFault := fun _ _ => some (2, 5) }

/-- The example platform with every `os.Remove` failing (error code 13). -/
def keepSourcePlatform : Platform :=
  { examplePlatform with removeFault := fun _ => some 13 }

/-- The `os.FileInfo` of the example file `in/1/README-FIRST.txt`. -/
def readmeInfo : FileInfo :=
  { name := utf8 "README-FIRST.txt", size := 3, isDir := false }

/-- A file system for the example of the source directory `.`: the file `AB2024C05D17` in
the working directory, and the directory `out`. -/
def dotFS : FileSystem := fun p =>
  if p = utf8 "AB2024C05D17" then some (.file [7, 8, 9])
  else if p = utf8 "out" then some .dir
  else none

/-- The file system `dotFS` once `AB2024C05D17` is moved below `out`. -/
def dotMoved : FileSystem :=
  (moveFile examplePlatform (osMkdirAll examplePlatform dotFS (utf8 "out/17-05-2024")).1
    (utf8 "AB2024C05D17") (utf8 "out/17-05-2024/AB2024C05D17")).1

/-- The example file system with the target of `in/1/AB2024C05D17` already there. -/
def collisionFS : FileSystem := fun p =>
  if p = utf8 "out/17-05-2024/1/AB2024C05D17" then some (.file [0])
  else if p = utf8 "out/17-05-2024" ∨ p = utf8 "out/17-05-2024/1" then some .dir
  else exampleFS p

/-- The `os.FileInfo` of the example file `in/1/notes`. -/
def notesInfo : FileInfo :=
  { name := utf8 "notes", size := 1, isDir := false }

/-! ## Lemmas on UTF-8 -/

theorem decodeRune_size_pos (b : Nat) (bs : GoString) : 1 ≤ (decodeRune (b :: bs)).2 := by
  cases bs with
  | nil => simp only [decodeRune]; split_ifs <;> simp
  | cons s1 r1 =>
    cases r1 with
    | nil => simp only [decodeRune]; split_ifs <;> simp
    | cons s2 r2 =>
      cases r2 with
      | nil => simp only [decodeRune]; split_ifs <;> simp
      | cons s3 r3 => simp only [decodeRune]; split_ifs <;> simp

theorem decodeRune_two (s0 s1 : Nat) (rest : GoString) (h0 : 0xC2 ≤ s0 ∧ s0 < 0xE0)
    (h1 : 0x80 ≤ s1 ∧ s1 ≤ 0xBF) :
    decodeRune (s0 :: s1 :: rest) = (s0 % 32 * 64 + s1 % 64, 2) := by
  have hw : firstWidth s0 = 2 := by unfold firstWidth; split_ifs <;> omega
  have hlo : acceptLo s0 = 0x80 := by unfold acceptLo; split_ifs <;> omega
  have hhi : acceptHi s0 = 0xBF := by unfold acceptHi; split_ifs <;> omega
  have a1 : ¬ s0 < 0x80 := by omega
  have a2 : ¬ (s1 < 0x80 ∨ 0xBF < s1) := by omega
  simp [decodeRune, hw, hlo, hhi, a1, a2]

theorem decodeRune_three (s0 s1 s2 : Nat) (rest : GoString) (h0 : 0xE0 ≤ s0 ∧ s0 < 0xF0)
    (h1 : acceptLo s0 ≤ s1 ∧ s1 ≤ acceptHi s0) (h2 : 0x80 ≤ s2 ∧ s2 ≤ 0xBF) :
    decodeRune (s0 :: s1 :: s2 :: rest) = (s0 % 16 * 4096 + s1 % 64 * 64 + s2 % 64, 3) := by
  have hw : firstWidth s0 = 3 := by unfold firstWidth; split_ifs <;> omega
  have a1 : ¬ s0 < 0x80 := by omega
  have a2 : ¬ (s1 < acceptLo s0 ∨ acceptHi s0 < s1) := by omega
  have a3 : ¬ (s2 < 0x80 ∨ 0xBF < s2) := by omega
  simp [decodeRune, hw, a1, a2, a3]

theorem decodeRune_four (s0 s1 s2 s3 : Nat) (rest : GoString) (h0 : 0xF0 ≤ s0 ∧ s0 < 0xF5)
    (h1 : acceptLo s0 ≤ s1 ∧ s1 ≤ acceptHi s0) (h2 : 0x80 ≤ s2 ∧ s2 ≤ 0xBF)
    (h3 : 0x80 ≤ s3 ∧ s3 ≤ 0xBF) :
    decodeRune (s0 :: s1 :: s2 :: s3 :: rest)
      = (s0 % 8 * 262144 + s1 % 64 * 4096 + s2 % 64 * 64 + s3 % 64, 4) := by
  have hw : firstWidth s0 = 4 := by unfold firstWidth; split_ifs <;> omega
  have a1 : ¬ s0 < 0x80 := by omega
  have a2 : ¬ (s1 < acceptLo s0 ∨ acceptHi s0 < s1) := by omega
  have a3 : ¬ (s2 < 0x80 ∨ 0xBF < s2) := by omega
  have a4 : ¬ (s3 < 0x80 ∨ 0xBF < s3) := by omega
  simp [decodeRune, hw, a1, a2, a3, a4]

theorem decodeRune_encodeRune (c : Nat) (rest : GoString)
    (h : c < 0xD800 ∨ (0xDFFF < c ∧ c < 0x110000)) :
    decodeRune (encodeRune c ++ rest) = (c, (encodeRune c).length) := by
  unfold encodeRune
  split_ifs with h1 h2 h3 h4
  · simp [decodeRune, h1]
  · simp only [List.cons_append, List.nil_append, List.length_cons, List.length_nil]
    rw [decodeRune_two _ _ _ (by omega) (by omega)]
    refine Prod.ext ?_ rfl
    simp only []
    omega
  · exfalso; omega
  · simp only [List.cons_append, List.nil_append, List.length_cons, List.length_nil]
    rw [decodeRune_three _ _ _ _ (by omega) (by unfold acceptLo acceptHi; split_ifs <;> omega)
      (by omega)]
    refine Prod.ext ?_ rfl
    simp only []
    omega
  · simp only [List.cons_append, List.nil_append, List.length_cons, List.length_nil]
    rw [decodeRune_four _ _ _ _ _ (by omega) (by unfold acceptLo acceptHi; split_ifs <;> omega)
      (by omega) (by omega)]
    refine Prod.ext ?_ rfl
    simp only []
    omega

theorem encodeRune_ne_nil (c : Nat) : encodeRune c ≠ [] := by
  unfold encodeRune
  split_ifs <;> simp

/-- Fuel beyond the length of the string changes nothing: the loop over a string has ended
after as many iterations as the string has bytes. -/
theorem rangeRunes_fuel :
    ∀ (fuel : Nat) (s : GoString), s.length ≤ fuel →
      ∀ fuel2, s.length ≤ fuel2 → rangeRunes fuel s = rangeRunes fuel2 s := by
  intro fuel
  induction fuel with
  | zero =>
    intro s hs fuel2 _
    have : s = [] := List.length_eq_zero.1 (Nat.le_zero.1 hs)
    subst this
    cases fuel2 <;> rfl
  | succ f ih =>
    intro s hs fuel2 hs2
    cases s with
    | nil => cases fuel2 <;> rfl
    | cons b bs =>
      cases fuel2 with
      | zero => simp at hs2
      | succ f2 =>
        have hpos := decodeRune_size_pos b bs
        have hlen : ((b :: bs).drop (decodeRune (b :: bs)).2).length ≤ bs.length := by
          simp only [List.length_drop, List.length_cons]; omega
        simp only [rangeRunes]
        rw [ih _ (by simp at hs; omega) f2 (by simp at hs2; omega)]

/-- The runes of `range` over `s` are those of the loop run with any fuel that covers the
length of `s`. -/
theorem runes_eq_rangeRunes (s : GoString) (fuel : Nat) (h : s.length ≤ fuel) :
    runes s = rangeRunes fuel s :=
  rangeRunes_fuel s.length s (le_refl _) fuel h

theorem rangeRunes_flatMap_encodeRune :
    ∀ (l : List Nat), (∀ c ∈ l, c < 0xD800 ∨ (0xDFFF < c ∧ c < 0x110000)) →
      ∀ fuel, (l.flatMap encodeRune).length ≤ fuel →
        rangeRunes fuel (l.flatMap encodeRune) = l := by
  intro l
  induction l with
  | nil => intro _ fuel _; cases fuel <;> rfl
  | cons c cs ih =>
    intro hv fuel hf
    have hc := hv c (by simp)
    have hdec := decodeRune_encodeRune c (cs.flatMap encodeRune) hc
    simp only [List.flatMap_cons] at hf ⊢
    obtain ⟨b, bs, hb⟩ := List.exists_cons_of_ne_nil (encodeRune_ne_nil c)
    cases fuel with
    | zero => rw [hb] at hf; simp at hf
    | succ f =>
      have hcons : encodeRune c ++ cs.flatMap encodeRune
          = b :: (bs ++ cs.flatMap encodeRune) := by rw [hb]; rfl
      rw [hcons] at hdec ⊢
      simp only [rangeRunes, hdec]
      rw [← hcons, List.drop_left]
      rw [ih (fun x hx => hv x (by simp [hx])) f (by
        rw [List.length_append, hb, List.length_cons] at hf; omega)]

/-- Decoding undoes encoding: the `range` loop over the bytes of a source string literal
yields the characters of the literal. -/
theorem runes_utf8 (s : String) : runes (utf8 s) = s.toList.map Char.toNat := by
  have h : utf8 s = (s.toList.map Char.toNat).flatMap encodeRune := by
    unfold utf8
    rw [List.flatMap_map]
  rw [h]
  apply rangeRunes_flatMap_encodeRune _ _ _ (le_refl _)
  intro c hc
  obtain ⟨ch, _, rfl⟩ := List.mem_map.1 hc
  exact ch.valid

theorem encodeRune_eq_year (r : Nat) : encodeRune r = utf8 "Г" ↔ r = 0x413 := by
  have h : utf8 "Г" = [0xD0, 0x93] := by decide
  rw [h]
  unfold encodeRune
  constructor
  · intro hr
    split_ifs at hr <;> simp at hr
    omega
  · rintro rfl
    decide

theorem encodeRune_eq_month (r : Nat) : encodeRune r = utf8 "М" ↔ r = 0x41C := by
  have h : utf8 "М" = [0xD0, 0x9C] := by decide
  rw [h]
  unfold encodeRune
  constructor
  · intro hr
    split_ifs at hr <;> simp at hr
    omega
  · rintro rfl
    decide

theorem encodeRune_eq_day (r : Nat) : encodeRune r = utf8 "Д" ↔ r = 0x414 := by
  have h : utf8 "Д" = [0xD0, 0x94] := by decide
  rw [h]
  unfold encodeRune
  constructor
  · intro hr
    split_ifs at hr <;> simp at hr
    omega
  · rintro rfl
    decide

theorem encodeRune_eq_skip (r : Nat) : encodeRune r = utf8 "?" ↔ r = 0x3F := by
  have h : utf8 "?" = [0x3F] := by decide
  rw [h]
  unfold encodeRune
  constructor
  · intro hr
    split_ifs at hr <;> simp at hr
    omega
  · rintro rfl
    decide

theorem rangeRunes_ascii (s : GoString) (h : ∀ b ∈ s, b < 0x80) :
    ∀ fuel, s.length ≤ fuel → rangeRunes fuel s = s := by
  induction s with
  | nil => intro fuel _; cases fuel <;> rfl
  | cons b bs ih =>
    intro fuel hf
    cases fuel with
    | zero => simp at hf
    | succ fuel =>
      have hb : b < 0x80 := h b (by simp)
      have hd : decodeRune (b :: bs) = (b, 1) := by simp [decodeRune, hb]
      simp only [rangeRunes, hd, List.drop_succ_cons, List.drop_zero]
      rw [ih (fun c hc => h c (by simp [hc])) fuel (by simpa using hf)]

theorem runes_ascii (s : GoString) (h : ∀ b ∈ s, b < 0x80) : runes s = s :=
  rangeRunes_ascii s h s.length (le_refl _)

theorem flatMap_encodeRune_ascii (s : GoString) (h : ∀ b ∈ s, b < 0x80) :
    s.flatMap encodeRune = s := by
  induction s with
  | nil => rfl
  | cons b bs ih =>
    have hb : b < 0x80 := h b (by simp)
    simp only [List.flatMap_cons]
    rw [ih (fun c hc => h c (by simp [hc]))]
    simp [encodeRune, hb]

/-! ## Lemmas on the template loop -/

theorem isMarker_iff (r : Nat) :
    isMarker r = true ↔ r = 0x413 ∨ r = 0x41C ∨ r = 0x414 ∨ r = 0x3F := by
  simp [isMarker, or_assoc]

theorem charsAt_nil {α : Type} (m : Nat) (items : List α) : charsAt m [] items = [] := by
  simp [charsAt]

theorem charsAt_cons {α : Type} (m r : Nat) (rs : List Nat) (c : α) (cs : List α) :
    charsAt m (r :: rs) (c :: cs) = if r = m then c :: charsAt m rs cs else charsAt m rs cs := by
  by_cases h : r = m <;> simp [charsAt, List.filter_cons, h]

theorem extractLoop_year (fileName : GoString) (rest : List Nat) (b : Builders) :
    extractLoop fileName (0x413 :: rest) b =
      match fileName[b.fileIndex]? with
      | none => .panic
      | some c => extractLoop fileName rest
          { b with yearPart := b.yearPart ++ [c], fileIndex := b.fileIndex + 1 } := by
  rw [extractLoop]
  rfl

theorem extractLoop_month (fileName : GoString) (rest : List Nat) (b : Builders) :
    extractLoop fileName (0x41C :: rest) b =
      match fileName[b.fileIndex]? with
      | none => .panic
      | some c => extractLoop fileName rest
          { b with monthPart := b.monthPart ++ [c], fileIndex := b.fileIndex + 1 } := by
  rw [extractLoop]
  rfl

theorem extractLoop_day (fileName : GoString) (rest : List Nat) (b : Builders) :
    extractLoop fileName (0x414 :: rest) b =
      match fileName[b.fileIndex]? with
      | none => .panic
      | some c => extractLoop fileName rest
          { b with dayPart := b.dayPart ++ [c], fileIndex := b.fileIndex + 1 } := by
  rw [extractLoop]
  rfl

theorem extractLoop_skip (fileName : GoString) (rest : List Nat) (b : Builders) :
    extractLoop fileName (0x3F :: rest) b =
      extractLoop fileName rest { b with fileIndex := b.fileIndex + 1 } := by
  rw [extractLoop]
  rfl

theorem extractLoop_invalid (fileName : GoString) (r : Nat) (rest : List Nat) (b : Builders)
    (h : isMarker r = false) :
    extractLoop fileName (r :: rest) b = .failed (.invalidTemplateChar (encodeRune r)) := by
  have hr : ¬ (r = 0x413 ∨ r = 0x41C ∨ r = 0x414 ∨ r = 0x3F) := by
    rw [← isMarker_iff]; simp [h]
  rw [extractLoop]
  have h1 : ¬ encodeRune r = utf8 "Г" := by rw [encodeRune_eq_year]; omega
  have h2 : ¬ encodeRune r = utf8 "М" := by rw [encodeRune_eq_month]; omega
  have h3 : ¬ encodeRune r = utf8 "Д" := by rw [encodeRune_eq_day]; omega
  have h4 : ¬ encodeRune r = utf8 "?" := by rw [encodeRune_eq_skip]; omega
  simp only [h1, h2, h3, h4, if_false]

/-- Over a run of markers that does not reach past the end of the filename the loop goes
on with the rest of the template; each builder has gained the filename bytes under its
marker. -/
theorem extractLoop_append_markers (fileName : GoString) (rest : List Nat) :
    ∀ (t : List Nat) (b : Builders), (∀ r ∈ t, isMarker r = true) →
      b.fileIndex + t.length ≤ fileName.length →
      extractLoop fileName (t ++ rest) b = extractLoop fileName rest
        ⟨b.yearPart ++ charsAt 0x413 t (fileName.drop b.fileIndex),
         b.monthPart ++ charsAt 0x41C t (fileName.drop b.fileIndex),
         b.dayPart ++ charsAt 0x414 t (fileName.drop b.fileIndex),
         b.fileIndex + t.length⟩ := by
  intro t
  induction t with
  | nil => intro b _ _; simp [charsAt_nil]
  | cons r rs ih =>
    intro b hm hlen
    have hlt : b.fileIndex < fileName.length := by simp at hlen; omega
    have hget : fileName[b.fileIndex]? = some fileName[b.fileIndex] :=
      List.getElem?_eq_getElem hlt
    have hdrop : fileName.drop b.fileIndex
        = fileName[b.fileIndex] :: fileName.drop (b.fileIndex + 1) :=
      List.drop_eq_getElem_cons hlt
    have hrs : ∀ x ∈ rs, isMarker x = true := fun x hx => hm x (by simp [hx])
    have hlen2 : b.fileIndex + 1 + rs.length ≤ fileName.length := by simp at hlen; omega
    have hr := (isMarker_iff r).1 (hm r (by simp))
    rw [hdrop, List.length_cons, List.cons_append]
    rcases hr with h | h | h | h <;> subst h
    · rw [extractLoop_year, hget]
      simp only []
      rw [ih _ hrs (by simpa using hlen2)]
      simp only [charsAt_cons]
      simp [Nat.add_assoc, Nat.add_comm 1]
    · rw [extractLoop_month, hget]
      simp only []
      rw [ih _ hrs (by simpa using hlen2)]
      simp only [charsAt_cons]
      simp [Nat.add_assoc, Nat.add_comm 1]
    · rw [extractLoop_day, hget]
      simp only []
      rw [ih _ hrs (by simpa using hlen2)]
      simp only [charsAt_cons]
      simp [Nat.add_assoc, Nat.add_comm 1]
    · rw [extractLoop_skip]
      rw [ih _ hrs (by simpa using hlen2)]
      simp only [charsAt_cons]
      simp [Nat.add_assoc, Nat.add_comm 1]

/-- On a template of markers that does not reach past the end of the filename the loop
finishes; each builder has gained the filename bytes under its marker. -/
theorem extractLoop_markers (fileName : GoString) (t : List Nat) (b : Builders)
    (hm : ∀ r ∈ t, isMarker r = true) (hlen : b.fileIndex + t.length ≤ fileName.length) :
    extractLoop fileName t b = .finished
      ⟨b.yearPart ++ charsAt 0x413 t (fileName.drop b.fileIndex),
       b.monthPart ++ charsAt 0x41C t (fileName.drop b.fileIndex),
       b.dayPart ++ charsAt 0x414 t (fileName.drop b.fileIndex),
       b.fileIndex + t.length⟩ := by
  have h := extractLoop_append_markers fileName [] t b hm hlen
  rw [List.append_nil] at h
  rw [h, extractLoop]

/-- A date marker one position past the end of the filename makes the loop panic. -/
theorem extractLoop_pastEnd (fileName : GoString) (pre post : List Nat) (c : Nat)
    (hm : ∀ r ∈ pre, isMarker r = true) (hlen : pre.length = fileName.length)
    (hc : c = 0x413 ∨ c = 0x41C ∨ c = 0x414) :
    extractLoop fileName (pre ++ c :: post) ⟨[], [], [], 0⟩ = .panic := by
  rw [extractLoop_append_markers fileName (c :: post) pre ⟨[], [], [], 0⟩ hm
    (by simp [hlen])]
  have hnone : fileName[0 + pre.length]? = none := by
    rw [List.getElem?_eq_none]; omega
  rcases hc with h | h | h <;> subst h
  · rw [extractLoop_year]; simp only [hnone]
  · rw [extractLoop_month]; simp only [hnone]
  · rw [extractLoop_day]; simp only [hnone]

/-- On a template with a rune that is no marker the loop fails at the leftmost such rune,
when the filename reaches as far as the template. -/
theorem extractLoop_firstInvalid (fileName : GoString) :
    ∀ (t : List Nat) (b : Builders), (∃ r ∈ t, isMarker r = false) →
      b.fileIndex + t.length ≤ fileName.length →
      ∃ c, t.find? (fun r => !isMarker r) = some c ∧
        extractLoop fileName t b = .failed (.invalidTemplateChar (encodeRune c)) := by
  intro t
  induction t with
  | nil => intro b h _; simp at h
  | cons r rs ih =>
    intro b hex hlen
    cases hr : isMarker r with
    | false => exact ⟨r, by simp [List.find?_cons, hr], extractLoop_invalid fileName r rs b hr⟩
    | true =>
      have hex2 : ∃ x ∈ rs, isMarker x = false := by
        obtain ⟨x, hx, hxm⟩ := hex
        rcases List.mem_cons.1 hx with h | h
        · subst h; rw [hr] at hxm; cases hxm
        · exact ⟨x, h, hxm⟩
      have hlt : b.fileIndex < fileName.length := by simp at hlen; omega
      have hget : fileName[b.fileIndex]? = some fileName[b.fileIndex] :=
        List.getElem?_eq_getElem hlt
      have hlen2 : b.fileIndex + 1 + rs.length ≤ fileName.length := by simp at hlen; omega
      have hfind : (r :: rs).find? (fun r => !isMarker r) = rs.find? (fun r => !isMarker r) := by
        simp [List.find?_cons, hr]
      rw [hfind]
      rcases (isMarker_iff r).1 hr with h | h | h | h <;> subst h
      · rw [extractLoop_year, hget]
        exact ih _ hex2 (by simpa using hlen2)
      · rw [extractLoop_month, hget]
        exact ih _ hex2 (by simpa using hlen2)
      · rw [extractLoop_day, hget]
        exact ih _ hex2 (by simpa using hlen2)
      · rw [extractLoop_skip]
        exact ih _ hex2 (by simpa using hlen2)

theorem charsAt_subset {α : Type} (m : Nat) (t : List Nat) (items : List α) :
    ∀ x ∈ charsAt m t items, x ∈ items := by
  intro x hx
  simp only [charsAt, List.mem_map, List.mem_filter] at hx
  obtain ⟨p, ⟨hp, _⟩, rfl⟩ := hx
  exact (List.of_mem_zip hp).2

/-! ## Lemmas on strconv.Atoi -/

theorem parseUintLoop_ok (maxVal : Nat) :
    ∀ (s : GoString) (n v : Nat), parseUintLoop maxVal s n = .ok v →
      s.all isDigit = true ∧ v = s.foldl (fun n c => n * 10 + (c - 0x30)) n := by
  intro s
  induction s with
  | nil =>
    intro n v h
    simp only [parseUintLoop, Except.ok.injEq] at h
    simp [h]
  | cons c cs ih =>
    intro n v h
    rw [parseUintLoop] at h
    by_cases hc : 0x30 ≤ c ∧ c ≤ 0x39
    · rw [if_pos hc] at h
      by_cases hn : n ≥ (2 ^ 64 - 1) / 10 + 1
      · rw [if_pos hn] at h; cases h
      · rw [if_neg hn] at h
        simp only [] at h
        split_ifs at h with hov
        have hn' : n < 1844674407370955162 := by
          norm_num at hn; exact hn
        have h10 : n * 10 % 2 ^ 64 = n * 10 := by
          apply Nat.mod_eq_of_lt; norm_num; omega
        rw [h10] at h hov
        have h1 : (n * 10 + (c - 0x30)) % 2 ^ 64 = n * 10 + (c - 0x30) := by
          norm_num at hov ⊢
          omega
        rw [h1] at h
        obtain ⟨hd, hv⟩ := ih _ _ h
        refine ⟨?_, ?_⟩
        · simp only [List.all_cons, hd, Bool.and_true]
          simp [isDigit, hc.1, hc.2]
        · simpa using hv
    · rw [if_neg hc] at h; cases h

theorem digitsOf_eq (s : GoString) :
    (if s.head? = some 0x2B ∨ s.head? = some 0x2D then s.tail else s) = digitsOf s := by
  cases s with
  | nil => simp [digitsOf]
  | cons c cs =>
    by_cases h1 : c = 0x2B
    · subst h1; simp [digitsOf]
    · by_cases h2 : c = 0x2D
      · subst h2; simp [digitsOf]
      · have : digitsOf (c :: cs) = c :: cs := by
          unfold digitsOf
          split
          · rename_i h; simp at h; exact absurd h.1 h1
          · rename_i h; simp at h; exact absurd h.1 h2
          · rfl
        simp [h1, h2, this]

theorem signedValue_eq (s : GoString) :
    signedValue s = if s.head? = some 0x2D then - (decimalValue (digitsOf s) : Int)
      else (decimalValue (digitsOf s) : Int) := by
  cases s with
  | nil => simp [signedValue]
  | cons c cs =>
    by_cases h2 : c = 0x2D
    · subst h2; simp [signedValue, digitsOf]
    · have : signedValue (c :: cs) = (decimalValue (digitsOf (c :: cs)) : Int) := by
        unfold signedValue
        split
        · rename_i h; simp at h; exact absurd h.1 h2
        · rfl
      simp [h2, this]

/-- What `strconv.Atoi` accepts is an optional sign and decimal digits, in the range of
`int`, and the value returned is the integer denoted. -/
theorem atoi_ok (s : GoString) (v : Int) (h : atoi s = .ok v) :
    isIntText s ∧ v = signedValue s := by
  unfold atoi parseInt at h
  by_cases hs : s = []
  · rw [if_pos hs] at h; cases h
  · rw [if_neg hs] at h
    simp only [digitsOf_eq] at h
    cases hp : parseUint (digitsOf s) with
    | error e =>
      rw [hp] at h
      cases e with
      | errSyntax => simp at h
      | errRange =>
        simp only [intSize] at h
        by_cases hneg : s.head? = some 0x2D
        · simp [hneg] at h
        · simp [hneg] at h
    | ok n =>
      rw [hp] at h
      unfold parseUint at hp
      by_cases hb : digitsOf s = []
      · rw [if_pos hb] at hp; cases hp
      · rw [if_neg hb] at hp
        obtain ⟨hd, hv⟩ := parseUintLoop_ok _ _ _ _ hp
        have hval : n = decimalValue (digitsOf s) := by rw [hv]; rfl
        have hun : isUnsignedDecimal (digitsOf s) = true := by
          simp [isUnsignedDecimal, hd, List.isEmpty_iff, hb]
        simp only [intSize] at h
        unfold isIntText
        rw [signedValue_eq]
        simp only [intSize]
        by_cases hneg : s.head? = some 0x2D
        · simp only [hneg, not_true_eq_false, false_and, if_false, true_and, if_true] at h ⊢
          split_ifs at h with h1
          simp only [Except.ok.injEq] at h
          rw [← hval]
          norm_num at h1 ⊢
          refine ⟨⟨hun, ?_, ?_⟩, h.symm⟩ <;> omega
        · simp only [hneg, not_false_eq_true, true_and, false_and, if_false] at h ⊢
          split_ifs at h with h1
          simp only [Except.ok.injEq] at h
          rw [← hval]
          norm_num at h1 ⊢
          refine ⟨⟨hun, ?_, ?_⟩, h.symm⟩ <;> omega

theorem foldl_digits_ge (cs : GoString) :
    ∀ n, n ≤ cs.foldl (fun n c => n * 10 + (c - 0x30)) n := by
  induction cs with
  | nil => intro n; simp
  | cons c cs ih =>
    intro n
    simp only [List.foldl_cons]
    have := ih (n * 10 + (c - 0x30))
    omega

theorem parseUintLoop_complete :
    ∀ (s : GoString) (n : Nat), s.all isDigit = true →
      s.foldl (fun n c => n * 10 + (c - 0x30)) n < 2 ^ 64 →
      parseUintLoop (2 ^ 64 - 1) s n = .ok (s.foldl (fun n c => n * 10 + (c - 0x30)) n) := by
  intro s
  induction s with
  | nil => intro n _ _; simp [parseUintLoop]
  | cons c cs ih =>
    intro n hd hlt
    simp only [List.all_cons, Bool.and_eq_true] at hd
    simp only [List.foldl_cons] at hlt ⊢
    have hc : 0x30 ≤ c ∧ c ≤ 0x39 := by
      have := hd.1; simp [isDigit] at this; exact this
    have hge := foldl_digits_ge cs (n * 10 + (c - 0x30))
    have hn : n * 10 + (c - 0x30) < 18446744073709551616 := by
      norm_num at hlt; omega
    rw [parseUintLoop, if_pos hc]
    have h1 : ¬ n ≥ (2 ^ 64 - 1) / 10 + 1 := by norm_num; omega
    rw [if_neg h1]
    have h10 : n * 10 % 2 ^ 64 = n * 10 := by
      apply Nat.mod_eq_of_lt; norm_num; omega
    have h11 : (n * 10 + (c - 0x30)) % 2 ^ 64 = n * 10 + (c - 0x30) := by
      apply Nat.mod_eq_of_lt; norm_num; omega
    simp only [h10, h11]
    have h2 : ¬ (n * 10 + (c - 0x30) < n * 10 ∨ n * 10 + (c - 0x30) > 2 ^ 64 - 1) := by
      norm_num; omega
    rw [if_neg h2]
    exact ih _ hd.2 hlt

/-- Every signed decimal string in the range of `int` is accepted by `strconv.Atoi`. -/
theorem atoi_complete (s : GoString) (h : isIntText s) : atoi s = .ok (signedValue s) := by
  obtain ⟨hun, hlo, hhi⟩ := h
  rw [signedValue_eq] at hlo hhi ⊢
  simp only [intSize] at hlo hhi
  simp only [isUnsignedDecimal, Bool.and_eq_true, Bool.not_eq_true', List.isEmpty_eq_false] at hun
  have hb : digitsOf s ≠ [] := by
    intro h0; rw [h0] at hun; simp at hun
  have hs : s ≠ [] := by
    intro h0; subst h0; exact hb rfl
  have hdv : decimalValue (digitsOf s) < 2 ^ 64 := by
    norm_num at hlo hhi ⊢
    split_ifs at hlo hhi <;> omega
  have hp : parseUint (digitsOf s) = .ok (decimalValue (digitsOf s)) := by
    unfold parseUint
    rw [if_neg hb]
    simp only [intSize]
    exact parseUintLoop_complete _ 0 hun.2 hdv
  unfold atoi parseInt
  rw [if_neg hs]
  simp only [digitsOf_eq, hp, intSize]
  by_cases hneg : s.head? = some 0x2D
  · simp only [hneg, if_true] at hlo hhi ⊢
    norm_num at hlo hhi ⊢
    simpa using hlo
  · simp only [hneg, if_false] at hlo hhi ⊢
    norm_num at hlo hhi ⊢
    simpa using hhi

/-! ## extractDate: the claims -/

theorem extractDate_of_finished (fileName template : GoString) (b : Builders)
    (h : extractLoop fileName (runes template) ⟨[], [], [], 0⟩ = .finished b) :
    (∃ e, e.isDateParse = true ∧ extractDate fileName template = .error e) ∨
      extractDate fileName template = .ok b.yearPart b.monthPart b.dayPart := by
  unfold extractDate
  rw [h]
  simp only []
  cases atoi b.yearPart with
  | error e => exact Or.inl ⟨.parseYear e, rfl, rfl⟩
  | ok _ =>
    cases atoi b.monthPart with
    | error e => exact Or.inl ⟨.parseMonth e, rfl, rfl⟩
    | ok _ =>
      cases atoi b.dayPart with
      | error e => exact Or.inl ⟨.parseDay e, rfl, rfl⟩
      | ok _ => exact Or.inr rfl

theorem fieldChars_ascii (m : Nat) (fileName template : GoString)
    (h : ∀ b ∈ fileName, b < 0x80) :
    fieldChars m fileName template = charsAt m (runes template) fileName := by
  unfold fieldChars
  rw [runes_ascii fileName h]
  exact flatMap_encodeRune_ascii _ (fun b hb => h b (charsAt_subset _ _ _ b hb))

/-- C1: for a template made only of the markers Г, М, Д and ? and a filename of single-byte
characters at least as long as the template, `extractDate` either fails with a date-parse
error or returns as year, month and day the filename characters standing at the positions
of the Г, the М and the Д markers, left to right; and on `"AB2024C05D17"` with the template
`"??ГГГГ?ММ?ДД"` it returns `("2024", "05", "17")`. -/
theorem extractDate_ascii_fields :
    (∀ fileName template : GoString,
      (∀ r ∈ runes template, isMarker r = true) → (∀ b ∈ fileName, b < 0x80) →
      (runes template).length ≤ fileName.length →
      ((∃ e, e.isDateParse = true ∧ extractDate fileName template = .error e) ∨
        extractDate fileName template = .ok (fieldChars 0x413 fileName template)
          (fieldChars 0x41C fileName template) (fieldChars 0x414 fileName template))) ∧
    extractDate (utf8 "AB2024C05D17") (utf8 "??ГГГГ?ММ?ДД")
      = .ok (utf8 "2024") (utf8 "05") (utf8 "17") := by
  refine ⟨?_, by decide⟩
  intro fileName template hm hascii hlen
  have hloop := extractLoop_markers fileName (runes template) ⟨[], [], [], 0⟩ hm
    (by simpa using hlen)
  have h := extractDate_of_finished fileName template _ hloop
  simp only [List.nil_append, List.drop_zero] at h
  rw [fieldChars_ascii _ _ _ hascii, fieldChars_ascii _ _ _ hascii,
    fieldChars_ascii _ _ _ hascii]
  exact h

/-- C1, at the filename `"IMG_2023-11-30.jpg"` and the template `"????ГГГГ?ММ?ДД"`. -/
theorem extractDate_ascii_fields_witness :
    (∃ e, e.isDateParse = true ∧
        extractDate (utf8 "IMG_2023-11-30.jpg") (utf8 "????ГГГГ?ММ?ДД") = .error e) ∨
      extractDate (utf8 "IMG_2023-11-30.jpg") (utf8 "????ГГГГ?ММ?ДД")
        = .ok (fieldChars 0x413 (utf8 "IMG_2023-11-30.jpg") (utf8 "????ГГГГ?ММ?ДД"))
          (fieldChars 0x41C (utf8 "IMG_2023-11-30.jpg") (utf8 "????ГГГГ?ММ?ДД"))
          (fieldChars 0x414 (utf8 "IMG_2023-11-30.jpg") (utf8 "????ГГГГ?ММ?ДД")) :=
  extractDate_ascii_fields.1 (utf8 "IMG_2023-11-30.jpg") (utf8 "????ГГГГ?ММ?ДД")
    (by decide) (by decide) (by decide)

/-- C4: a filename shorter than the template does not make `extractDate` return an error
value. On `"20"` with the template `"ГГГГ"` the index `fileName[2]` is out of range and the
call panics; on `"123"` with the template `"ГМД?"` the call returns a date. -/
theorem extractDate_short_fileName :
    (utf8 "20").length < (runes (utf8 "ГГГГ")).length ∧
    extractDate (utf8 "20") (utf8 "ГГГГ") = .panic ∧
    (utf8 "123").length < (runes (utf8 "ГМД?")).length ∧
    extractDate (utf8 "123") (utf8 "ГМД?") = .ok (utf8 "1") (utf8 "2") (utf8 "3") := by
  decide

/-- C5, as stated, fails: `extractDate` succeeds on `"-512"` with the template `"ГГМД"`
and returns the year `"-5"`, which has a sign. -/
theorem extractDate_unsigned_counterexample :
    ¬ (∀ (fileName template year month day : GoString),
        extractDate fileName template = .ok year month day →
        isUnsignedDecimal year = true ∧ isUnsignedDecimal month = true ∧
          isUnsignedDecimal day = true) := by
  intro h
  have h1 := h (utf8 "-512") (utf8 "ГГМД") (utf8 "-5") (utf8 "1") (utf8 "2") (by decide)
  exact absurd h1.1 (by decide)

theorem extractDate_ok_isIntText (fileName template year month day : GoString)
    (h : extractDate fileName template = .ok year month day) :
    isIntText year ∧ isIntText month ∧ isIntText day := by
  unfold extractDate at h
  cases hl : extractLoop fileName (runes template) ⟨[], [], [], 0⟩ with
  | panic => rw [hl] at h; cases h
  | failed e => rw [hl] at h; cases h
  | finished b =>
    rw [hl] at h
    simp only [] at h
    cases hy : atoi b.yearPart with
    | error e => rw [hy] at h; cases h
    | ok vy =>
      cases hmo : atoi b.monthPart with
      | error e => rw [hy, hmo] at h; cases h
      | ok vm =>
        cases hd : atoi b.dayPart with
        | error e => rw [hy, hmo, hd] at h; cases h
        | ok vd =>
          rw [hy, hmo, hd] at h
          simp only [ExtractResult.ok.injEq] at h
          obtain ⟨rfl, rfl, rfl⟩ := h
          exact ⟨(atoi_ok _ _ hy).1, (atoi_ok _ _ hmo).1, (atoi_ok _ _ hd).1⟩

/-- C5, amended: whenever `extractDate` succeeds, each of year, month and day is an optional
single sign `+` or `-` followed by one or more decimal digits, and denotes an integer in
the range of `int`; no calendar check is applied: the month `"13"` is accepted. -/
theorem extractDate_ok_intText :
    (∀ (fileName template year month day : GoString),
      extractDate fileName template = .ok year month day →
      isIntText year ∧ isIntText month ∧ isIntText day) ∧
    extractDate (utf8 "AB2024C13D17") (utf8 "??ГГГГ?ММ?ДД")
      = .ok (utf8 "2024") (utf8 "13") (utf8 "17") := by
  exact ⟨extractDate_ok_isIntText, by decide⟩

/-- C5 amended, at the filename `"-512"` and the template `"ГГМД"`. -/
theorem extractDate_ok_intText_witness :
    isIntText (utf8 "-5") ∧ isIntText (utf8 "1") ∧ isIntText (utf8 "2") :=
  extractDate_ok_intText.1 (utf8 "-512") (utf8 "ГГМД") (utf8 "-5") (utf8 "1") (utf8 "2")
    (by decide)

/-- C6: markers consume bytes of the filename, not characters. The name `"ф12345"` has six
characters, as many as the template `"??ГГМД"` has markers; its characters at the Г, М and
Д positions are `"23"`, `"4"` and `"5"`, and `extractDate` returns `("12", "3", "4")`: the
two bytes of `ф` were taken for two skipped positions. On `"Фото2024-05-17"` with the
template `"????ГГГГ?ММ?ДД"` the year is read out of the bytes of `то` and the call fails. -/
theorem extractDate_multibyte_fileName :
    (runes (utf8 "??ГГМД")).length ≤ (runes (utf8 "ф12345")).length ∧
    fieldChars 0x413 (utf8 "ф12345") (utf8 "??ГГМД") = utf8 "23" ∧
    fieldChars 0x41C (utf8 "ф12345") (utf8 "??ГГМД") = utf8 "4" ∧
    fieldChars 0x414 (utf8 "ф12345") (utf8 "??ГГМД") = utf8 "5" ∧
    extractDate (utf8 "ф12345") (utf8 "??ГГМД") = .ok (utf8 "12") (utf8 "3") (utf8 "4") ∧
    fieldChars 0x413 (utf8 "Фото2024-05-17") (utf8 "????ГГГГ?ММ?ДД") = utf8 "2024" ∧
    extractDate (utf8 "Фото2024-05-17") (utf8 "????ГГГГ?ММ?ДД")
      = .error (.parseYear .errSyntax) := by
  decide

/-- C8: for a filename at least as long as the template and a template with a character
other than Г, М, Д and ?, `extractDate` fails with the invalid-template-character error
that names the leftmost such character, whatever the filename holds. -/
theorem extractDate_invalid_template (fileName template : GoString)
    (hlen : (runes template).length ≤ fileName.length)
    (hex : ∃ r ∈ runes template, isMarker r = false) :
    ∃ c, (runes template).find? (fun r => !isMarker r) = some c ∧
      extractDate fileName template = .error (.invalidTemplateChar (encodeRune c)) := by
  obtain ⟨c, hc, hloop⟩ := extractLoop_firstInvalid fileName (runes template) ⟨[], [], [], 0⟩
    hex (by simpa using hlen)
  refine ⟨c, hc, ?_⟩
  unfold extractDate
  rw [hloop]

/-- C8, at the filename `"2024-05-17"` and the template `"ГГГГ-ММ_ДД"`: the error names `-`. -/
theorem extractDate_invalid_template_witness :
    ∃ c, (runes (utf8 "ГГГГ-ММ_ДД")).find? (fun r => !isMarker r) = some c ∧
      extractDate (utf8 "2024-05-17") (utf8 "ГГГГ-ММ_ДД")
        = .error (.invalidTemplateChar (encodeRune c)) :=
  extractDate_invalid_template (utf8 "2024-05-17") (utf8 "ГГГГ-ММ_ДД") (by decide)
    ⟨0x2D, by decide, by decide⟩

/-! ## Lemmas on path/filepath -/

theorem splitSlash_ne_nil (p : GoString) : splitSlash p ≠ [] := by
  cases p with
  | nil => simp [splitSlash]
  | cons c cs =>
    rw [splitSlash]
    split_ifs
    · simp
    · split <;> simp

theorem splitSlash_append_slash (a b : GoString) :
    splitSlash (a ++ 0x2F :: b) = splitSlash a ++ splitSlash b := by
  induction a with
  | nil => simp [splitSlash]
  | cons c cs ih =>
    rw [List.cons_append, splitSlash, splitSlash, ih]
    by_cases hc : c = 0x2F
    · simp [hc]
    · simp only [hc, if_false]
      obtain ⟨el, els, h⟩ := List.exists_cons_of_ne_nil (splitSlash_ne_nil cs)
      rw [h]
      rfl

theorem splitSlash_noSlash (n : GoString) (h : 0x2F ∉ n) : splitSlash n = [n] := by
  induction n with
  | nil => rfl
  | cons c cs ih =>
    have hc : c ≠ 0x2F := fun hc => h (by simp [hc])
    have hcs : 0x2F ∉ cs := fun hm => h (by simp [hm])
    rw [splitSlash, if_neg hc, ih hcs]

theorem cleanElem_plain (rooted : Bool) (kept : List GoString) (n : GoString)
    (h : isPlainName n) : cleanElem rooted kept n = kept ++ [n] := by
  obtain ⟨h1, _, h3, h4⟩ := h
  unfold cleanElem
  rw [if_neg (by simp [h1, h3]), if_neg h4]

theorem lastComponent_fold_noSlash (n : GoString) (h : 0x2F ∉ n) :
    ∀ acc : GoString,
      n.foldl (fun acc c => if c = 0x2F then [] else acc ++ [c]) acc = acc ++ n := by
  induction n with
  | nil => intro acc; simp
  | cons c cs ih =>
    intro acc
    have hc : c ≠ 0x2F := fun hc => h (by simp [hc])
    have hcs : 0x2F ∉ cs := fun hm => h (by simp [hm])
    simp only [List.foldl_cons, hc, if_false]
    rw [ih hcs]
    simp

theorem lastComponent_noSlash (n : GoString) (h : 0x2F ∉ n) : lastComponent n = n := by
  unfold lastComponent
  rw [lastComponent_fold_noSlash n h]
  rfl

theorem lastComponent_append_slash (x n : GoString) (h : 0x2F ∉ n) :
    lastComponent (x ++ 0x2F :: n) = n := by
  unfold lastComponent
  rw [List.foldl_append, List.foldl_cons]
  simp only [if_true]
  rw [lastComponent_fold_noSlash n h]
  rfl

theorem intercalate_append_singleton (sep : GoString) (xs : List GoString) (n : GoString)
    (h : xs ≠ []) :
    List.intercalate sep (xs ++ [n]) = List.intercalate sep xs ++ sep ++ n := by
  induction xs with
  | nil => exact absurd rfl h
  | cons x rest ih =>
    cases rest with
    | nil => simp [List.intercalate, List.intersperse]
    | cons y ys =>
      have := ih (by simp)
      simpa [List.intercalate, List.intersperse] using this

theorem endsWithName_intercalate (pre : GoString) (xs : List GoString) (n : GoString) :
    endsWithName (pre ++ List.intercalate [0x2F] (xs ++ [n])) n ∨
      (pre ++ List.intercalate [0x2F] (xs ++ [n]) = pre ++ n ∧ xs = []) := by
  cases xs with
  | nil => right; simp [List.intercalate, List.intersperse]
  | cons x rest =>
    left
    right
    refine ⟨pre ++ List.intercalate [0x2F] (x :: rest), ?_⟩
    rw [intercalate_append_singleton _ _ _ (by simp)]
    simp

theorem filepathBase_endsWithName (p n : GoString) (hn : isPlainName n)
    (h : endsWithName p n) : filepathBase p = n := by
  obtain ⟨h1, h2, _, _⟩ := hn
  have hlast : lastComponent p = n := by
    rcases h with h | ⟨x, h⟩
    · rw [h]; exact lastComponent_noSlash n h2
    · rw [h]; exact lastComponent_append_slash x n h2
  have hp : p ≠ [] := by
    rcases h with h | ⟨x, h⟩
    · rw [h]; exact h1
    · rw [h]; simp
  have hstrip : (p.reverse.dropWhile (fun c => c = 0x2F)).reverse = p := by
    obtain ⟨c, cs, hc⟩ := List.exists_cons_of_ne_nil
      (show p.reverse ≠ [] by simpa using hp)
    have hcn : c ∈ n := by
      have hpe : p = cs.reverse ++ [c] := by
        have := congrArg List.reverse hc
        simpa using this
      obtain ⟨m, ms, hm⟩ := List.exists_cons_of_ne_nil
        (show n.reverse ≠ [] by simpa using h1)
      have hne : n = ms.reverse ++ [m] := by
        have := congrArg List.reverse hm
        simpa using this
      have hmc : m = c := by
        rcases h with h | ⟨x, h⟩
        · rw [h, hne] at hpe
          have := (List.append_inj' hpe rfl).2
          simpa using this
        · have hp2 : p = (x ++ 0x2F :: ms.reverse) ++ [m] := by rw [h, hne]; simp
          rw [hp2] at hpe
          have := (List.append_inj' hpe rfl).2
          simpa using this
      rw [← hmc, hne]; simp
    have hc2 : c ≠ 0x2F := fun hEq => h2 (hEq ▸ hcn)
    rw [hc, List.dropWhile_cons]
    simp only [hc2, decide_False, Bool.false_eq_true, if_false]
    rw [← hc, List.reverse_reverse]
  unfold filepathBase
  rw [if_neg hp]
  simp only [hstrip, hlast, if_neg h1]

theorem dropWhile_append_last (els : List GoString) (n : GoString) (h : n ≠ []) :
    ∃ pre, els.dropWhile (fun e => e.isEmpty) ++ [n] = pre ++ [n] ∧
      (els ++ [n]).dropWhile (fun e => e.isEmpty) = pre ++ [n] := by
  induction els with
  | nil =>
    refine ⟨[], rfl, ?_⟩
    have hf : n.isEmpty = false := by
      cases n with
      | nil => exact absurd rfl h
      | cons _ _ => rfl
    simp [List.dropWhile, hf]
  | cons e es ih =>
    obtain ⟨pre, h1, h2⟩ := ih
    by_cases he : e.isEmpty = true
    · refine ⟨pre, ?_, ?_⟩
      · simp [List.dropWhile_cons, he, h1]
      · simp [List.dropWhile_cons, he, h2]
    · refine ⟨e :: es, ?_, ?_⟩
      · simp [List.dropWhile_cons, he]
      · simp [List.dropWhile_cons, he]

/-- The path `filepath.Join` makes ends with its last element when that is a plain name. -/
theorem filepathJoin_endsWithName (els : List GoString) (n : GoString) (hn : isPlainName n) :
    endsWithName (filepathJoin (els ++ [n])) n := by
  obtain ⟨pre, _, hdrop⟩ := dropWhile_append_last els n hn.1
  unfold filepathJoin
  rw [hdrop]
  have hne : pre ++ [n] ≠ [] := by simp
  obtain ⟨y, ys, hy⟩ := List.exists_cons_of_ne_nil hne
  rw [hy]
  simp only []
  rw [← hy]
  -- the joined text and its elements
  have hsplit : ∃ ks, splitSlash (List.intercalate [0x2F] (pre ++ [n])) = ks ++ [n] := by
    cases pre with
    | nil =>
      refine ⟨[], ?_⟩
      simp [List.intercalate, List.intersperse, splitSlash_noSlash n hn.2.1]
    | cons x rest =>
      refine ⟨splitSlash (List.intercalate [0x2F] (x :: rest)), ?_⟩
      rw [intercalate_append_singleton _ _ _ (by simp)]
      rw [List.append_assoc]
      rw [show ([0x2F] : GoString) ++ n = 0x2F :: n from rfl]
      rw [splitSlash_append_slash, splitSlash_noSlash n hn.2.1]
  obtain ⟨ks, hks⟩ := hsplit
  have hpath : List.intercalate [0x2F] (pre ++ [n]) ≠ [] := by
    intro h0
    rw [h0] at hks
    have : n = [] := by
      simp [splitSlash] at hks
      have := congrArg List.getLast? hks
      simp at this
      exact this
    exact hn.1 this
  unfold filepathClean
  rw [if_neg hpath]
  simp only [hks, List.foldl_append, List.foldl_cons, List.foldl_nil]
  rw [cleanElem_plain _ _ _ hn]
  have hout : ∀ pre0 : GoString, ∀ kept : List GoString,
      pre0 ++ List.intercalate [0x2F] (kept ++ [n]) ≠ [] := by
    intro pre0 kept h0
    have := (List.append_eq_nil.1 h0).2
    cases kept with
    | nil => simp [List.intercalate, List.intersperse] at this; exact hn.1 this
    | cons k ks2 =>
      rw [intercalate_append_singleton _ _ _ (by simp)] at this
      simp at this
  rw [if_neg (hout _ _)]
  rcases endsWithName_intercalate
      (if (decide (List.head? (List.intercalate [0x2F] (pre ++ [n])) = some 0x2F)) = true
        then [0x2F] else [])
      (List.foldl (cleanElem (decide (List.head? (List.intercalate [0x2F] (pre ++ [n]))
        = some 0x2F))) [] ks) n with h | ⟨h, _⟩
  · exact h
  · rw [h]
    split_ifs
    · right; exact ⟨[], rfl⟩
    · left; rfl

/-- The last element of a joined path is its last element, when that is a plain name. -/
theorem filepathBase_filepathJoin (els : List GoString) (n : GoString) (hn : isPlainName n) :
    filepathBase (filepathJoin (els ++ [n])) = n :=
  filepathBase_endsWithName _ n hn (filepathJoin_endsWithName els n hn)

theorem lastComponent_fold_mem (p : GoString) :
    ∀ acc : GoString, 0x2F ∉ acc →
      0x2F ∉ p.foldl (fun acc c => if c = 0x2F then [] else acc ++ [c]) acc := by
  induction p with
  | nil => intro acc h; simpa using h
  | cons c cs ih =>
    intro acc h
    simp only [List.foldl_cons]
    by_cases hc : c = 0x2F
    · rw [if_pos hc]; exact ih [] (by simp)
    · rw [if_neg hc]
      apply ih
      intro hm
      rcases List.mem_append.1 hm with h1 | h1
      · exact h h1
      · simp at h1; exact hc h1.symm

/-- A base name is a plain name unless it is `.`, `..` or `/`. -/
theorem filepathBase_plain (path : GoString) (h1 : filepathBase path ≠ utf8 ".")
    (h2 : filepathBase path ≠ utf8 "..") (h3 : filepathBase path ≠ [0x2F]) :
    isPlainName (filepathBase path) := by
  by_cases ha : path = []
  · exact absurd (by rw [ha]; rfl) h1
  · have hb : filepathBase path =
        if lastComponent (path.reverse.dropWhile (fun c => c = 0x2F)).reverse = [] then [0x2F]
        else lastComponent (path.reverse.dropWhile (fun c => c = 0x2F)).reverse := by
      unfold filepathBase
      rw [if_neg ha]
    by_cases hl : lastComponent (path.reverse.dropWhile (fun c => c = 0x2F)).reverse = []
    · rw [if_pos hl] at hb
      exact absurd hb h3
    · rw [if_neg hl] at hb
      refine ⟨?_, ?_, h1, h2⟩
      · rw [hb]; exact hl
      · rw [hb]; exact lastComponent_fold_mem _ [] (by simp)

/-! ## moveFile: the claims -/

/-- C2: when `targetPath` already exists, `moveFile` returns an error and leaves the file
system as it was: every path names what it named before, so the files at `targetPath` and
at `sourcePath` keep their bytes and nothing is created or deleted. -/
theorem moveFile_target_exists (pf : Platform) (fs : FileSystem)
    (sourcePath targetPath : GoString) (h : fs targetPath ≠ none) :
    ∃ e, moveFile pf fs sourcePath targetPath = (fs, some e) := by
  unfold moveFile
  cases osOpen pf fs sourcePath with
  | error e => exact ⟨_, rfl⟩
  | ok n =>
    simp only []
    unfold osStat
    cases pf.statFault targetPath with
    | some code => exact ⟨_, rfl⟩
    | none =>
      cases ht : fs targetPath with
      | none => exact absurd ht h
      | some n => exact ⟨_, rfl⟩

/-- C2, at the example file system, moving `in/1/notes` onto the existing
`in/1/AB2024C05D17`. -/
theorem moveFile_target_exists_witness :
    ∃ e, moveFile examplePlatform exampleFS (utf8 "in/1/notes") (utf8 "in/1/AB2024C05D17")
      = (exampleFS, some e) :=
  moveFile_target_exists examplePlatform exampleFS (utf8 "in/1/notes")
    (utf8 "in/1/AB2024C05D17") (by decide)

/-- What a call of `moveFile` that returns no error found and left behind. -/
theorem moveFile_ok (pf : Platform) (fs : FileSystem) (sourcePath targetPath : GoString)
    (h : (moveFile pf fs sourcePath targetPath).2 = none) :
    ∃ bytes, fs sourcePath = some (.file bytes) ∧ fs targetPath = none ∧
      (moveFile pf fs sourcePath targetPath).1 =
        (((fs.set targetPath (some (.file []))).set targetPath (some (.file bytes))).set
          sourcePath none) := by
  unfold moveFile osOpen osStat osCreate ioCopy osRemove at *
  cases ho : pf.openFault sourcePath <;> simp only [ho] at h ⊢
  · cases hs : fs sourcePath <;> simp only [hs] at h ⊢
    · simp at h
    · cases hst : pf.statFault targetPath <;> simp only [hst] at h ⊢
      · cases ht : fs targetPath <;> simp only [ht] at h ⊢
        · simp only [OsError.isNotExist] at h ⊢
          cases hc : pf.createFault targetPath <;> simp only [hc] at h ⊢
          · have hne : sourcePath ≠ targetPath := by
              intro heq; rw [heq, ht] at hs; cases hs
            simp only [FileSystem.set, hne, if_false, hs, if_true, Bool.true_eq_false,
              not_false_eq_true, not_true_eq_false] at h ⊢
            rename_i n
            cases n with
            | dir => simp at h
            | file bytes =>
              simp only [] at h ⊢
              cases hcp : pf.copyFault sourcePath targetPath <;> simp only [hcp] at h ⊢
              · have hsrc : ((fs.set targetPath (some (.file []))).set targetPath
                    (some (.file bytes))) sourcePath = some (.file bytes) := by
                  simp [FileSystem.set, hne, hs]
                cases hr : pf.removeFault sourcePath <;> simp only [hr, hsrc] at h ⊢
                · exact ⟨bytes, rfl, trivial, rfl⟩
                · simp at h
              · simp at h
          · simp at h
        · simp at h
      · simp [OsError.isNotExist] at h
  · simp at h

theorem moveFile_ok_effect (pf : Platform) (fs : FileSystem)
    (sourcePath targetPath : GoString)
    (h : (moveFile pf fs sourcePath targetPath).2 = none) :
    ∃ bytes, fs sourcePath = some (.file bytes) ∧
      (moveFile pf fs sourcePath targetPath).1 targetPath = some (.file bytes) ∧
      (moveFile pf fs sourcePath targetPath).1 sourcePath = none := by
  obtain ⟨bytes, hs, ht, hfs⟩ := moveFile_ok pf fs sourcePath targetPath h
  have hne : targetPath ≠ sourcePath := by
    intro heq; rw [heq, hs] at ht; cases ht
  refine ⟨bytes, hs, ?_, ?_⟩
  · rw [hfs]; simp [FileSystem.set, hne]
  · rw [hfs]; simp [FileSystem.set]

/-- C3: when `moveFile` returns no error, the file at `targetPath` afterwards holds the
bytes the file at `sourcePath` held before the call, and `sourcePath` no longer exists. -/
theorem moveFile_success (pf : Platform) (fs : FileSystem) (sourcePath targetPath : GoString)
    (h : (moveFile pf fs sourcePath targetPath).2 = none) :
    ∃ bytes, fs sourcePath = some (.file bytes) ∧
      (moveFile pf fs sourcePath targetPath).1 targetPath = some (.file bytes) ∧
      (moveFile pf fs sourcePath targetPath).1 sourcePath = none :=
  moveFile_ok_effect pf fs sourcePath targetPath h

/-- C3, at the example file system, moving `in/1/AB2024C05D17` to `out/AB2024C05D17`. -/
theorem moveFile_success_witness :
    ∃ bytes, exampleFS (utf8 "in/1/AB2024C05D17") = some (.file bytes) ∧
      (moveFile examplePlatform exampleFS (utf8 "in/1/AB2024C05D17")
        (utf8 "out/AB2024C05D17")).1 (utf8 "out/AB2024C05D17") = some (.file bytes) ∧
      (moveFile examplePlatform exampleFS (utf8 "in/1/AB2024C05D17")
        (utf8 "out/AB2024C05D17")).1 (utf8 "in/1/AB2024C05D17") = none :=
  moveFile_success examplePlatform exampleFS (utf8 "in/1/AB2024C05D17")
    (utf8 "out/AB2024C05D17") (by decide)

/-! ## processDirectory: the claims -/

theorem processDirectoryStep_traversalError (pf : Platform) (sourceDir targetBaseDir : GoString)
    (minFileSize : Int) (template : GoString) (fs : FileSystem) (path : GoString)
    (info : FileInfo) (e : OsError) :
    processDirectoryStep pf sourceDir targetBaseDir minFileSize template fs path info (some e)
      = .returned fs (some e) [] := rfl

theorem processDirectoryStep_skip (pf : Platform) (sourceDir targetBaseDir : GoString)
    (minFileSize : Int) (template : GoString) (fs : FileSystem) (path : GoString)
    (info : FileInfo) (h : ¬ (info.isDir = false ∧ minFileSize ≤ info.size)) :
    processDirectoryStep pf sourceDir targetBaseDir minFileSize template fs path info none
      = .returned fs none [] := by
  unfold processDirectoryStep
  simp only [ge_iff_le]
  rw [if_neg h]

theorem processDirectoryStep_extractPanic (pf : Platform) (sourceDir targetBaseDir : GoString)
    (minFileSize : Int) (template : GoString) (fs : FileSystem) (path : GoString)
    (info : FileInfo) (h : info.isDir = false ∧ minFileSize ≤ info.size)
    (hx : extractDate info.name template = .panic) :
    processDirectoryStep pf sourceDir targetBaseDir minFileSize template fs path info none
      = .panic := by
  unfold processDirectoryStep
  simp only [ge_iff_le]
  rw [if_pos h, hx]

theorem processDirectoryStep_extractError (pf : Platform) (sourceDir targetBaseDir : GoString)
    (minFileSize : Int) (template : GoString) (fs : FileSystem) (path : GoString)
    (info : FileInfo) (e : ExtractError) (h : info.isDir = false ∧ minFileSize ≤ info.size)
    (hx : extractDate info.name template = .error e) :
    processDirectoryStep pf sourceDir targetBaseDir minFileSize template fs path info none
      = .returned fs none [.extractFailed info.name e] := by
  unfold processDirectoryStep
  simp only [ge_iff_le]
  rw [if_pos h, hx]

/-- The five ways the walk function ends once the date of a candidate is extracted. -/
theorem processDirectoryStep_dated (pf : Platform) (sourceDir targetBaseDir : GoString)
    (minFileSize : Int) (template : GoString) (fs : FileSystem) (path : GoString)
    (info : FileInfo) (year month day : GoString)
    (h : info.isDir = false ∧ minFileSize ≤ info.size)
    (hx : extractDate info.name template = .ok year month day) :
    (statIsNotExist pf fs
        (pf.join [targetBaseDir, dateFolder year month day, pf.base sourceDir]) = true ∧
      ((∃ fs1 e, osMkdirAll pf fs
            (pf.join [targetBaseDir, dateFolder year month day, pf.base sourceDir])
            = (fs1, some e) ∧
          processDirectoryStep pf sourceDir targetBaseDir minFileSize template fs path info none
            = .returned fs1 (some e)
              [.mkdirFailed
                (pf.join [targetBaseDir, dateFolder year month day, pf.base sourceDir]) e]) ∨
       (∃ fs1 fs2 e, osMkdirAll pf fs
            (pf.join [targetBaseDir, dateFolder year month day, pf.base sourceDir])
            = (fs1, none) ∧
          moveFile pf fs1 path
            (pf.join [pf.join [targetBaseDir, dateFolder year month day, pf.base sourceDir],
              info.name]) = (fs2, some e) ∧
          processDirectoryStep pf sourceDir targetBaseDir minFileSize template fs path info none
            = .returned fs2 none
              [.folderCreated
                (pf.join [targetBaseDir, dateFolder year month day, pf.base sourceDir]),
               .moveFailed path
                (pf.join [pf.join [targetBaseDir, dateFolder year month day, pf.base sourceDir],
                  info.name]) e]) ∨
       (∃ fs1 fs2, osMkdirAll pf fs
            (pf.join [targetBaseDir, dateFolder year month day, pf.base sourceDir])
            = (fs1, none) ∧
          moveFile pf fs1 path
            (pf.join [pf.join [targetBaseDir, dateFolder year month day, pf.base sourceDir],
              info.name]) = (fs2, none) ∧
          processDirectoryStep pf sourceDir targetBaseDir minFileSize template fs path info none
            = .returned fs2 none
              [.folderCreated
                (pf.join [targetBaseDir, dateFolder year month day, pf.base sourceDir]),
               .moved path
                (pf.join [pf.join [targetBaseDir, dateFolder year month day, pf.base sourceDir],
                  info.name])]))) ∨
    (statIsNotExist pf fs
        (pf.join [targetBaseDir, dateFolder year month day, pf.base sourceDir]) = false ∧
      ((∃ fs2 e, moveFile pf fs path
            (pf.join [pf.join [targetBaseDir, dateFolder year month day, pf.base sourceDir],
              info.name]) = (fs2, some e) ∧
          processDirectoryStep pf sourceDir targetBaseDir minFileSize template fs path info none
            = .returned fs2 none
              [.moveFailed path
                (pf.join [pf.join [targetBaseDir, dateFolder year month day, pf.base sourceDir],
                  info.name]) e]) ∨
       (∃ fs2, moveFile pf fs path
            (pf.join [pf.join [targetBaseDir, dateFolder year month day, pf.base sourceDir],
              info.name]) = (fs2, none) ∧
          processDirectoryStep pf sourceDir targetBaseDir minFileSize template fs path info none
            = .returned fs2 none
              [.moved path
                (pf.join [pf.join [targetBaseDir, dateFolder year month day, pf.base sourceDir],
                  info.name])]))) := by
  unfold processDirectoryStep
  simp only [ge_iff_le]
  rw [if_pos h, hx]
  simp only []
  cases hmiss : statIsNotExist pf fs
      (pf.join [targetBaseDir, dateFolder year month day, pf.base sourceDir]) with
  | true =>
    refine Or.inl ⟨rfl, ?_⟩
    simp only [if_true]
    rcases hmk : osMkdirAll pf fs
        (pf.join [targetBaseDir, dateFolder year month day, pf.base sourceDir]) with ⟨fs1, r1⟩
    cases r1 with
    | some e => exact Or.inl ⟨fs1, e, rfl, rfl⟩
    | none =>
      simp only []
      rcases hmv : moveFile pf fs1 path
          (pf.join [pf.join [targetBaseDir, dateFolder year month day, pf.base sourceDir],
            info.name]) with ⟨fs2, r2⟩
      cases r2 with
      | some e => exact Or.inr (Or.inl ⟨fs1, fs2, e, rfl, hmv, rfl⟩)
      | none => exact Or.inr (Or.inr ⟨fs1, fs2, rfl, hmv, rfl⟩)
  | false =>
    refine Or.inr ⟨rfl, ?_⟩
    simp only [Bool.false_eq_true, if_false]
    rcases hmv : moveFile pf fs path
        (pf.join [pf.join [targetBaseDir, dateFolder year month day, pf.base sourceDir],
          info.name]) with ⟨fs2, r2⟩
    cases r2 with
    | some e => exact Or.inl ⟨fs2, e, rfl, rfl⟩
    | none => exact Or.inr ⟨fs2, rfl, rfl⟩

theorem mkdirs_file (fs : FileSystem) (ps : List GoString) (q : GoString) (bytes : GoString)
    (h : mkdirs fs ps q = some (.file bytes)) : fs q = some (.file bytes) := by
  unfold mkdirs at h
  split_ifs at h
  · cases h
  · exact h

theorem osMkdirAll_file (pf : Platform) (fs : FileSystem) (p q : GoString) (bytes : GoString)
    (h : (osMkdirAll pf fs p).1 q = some (.file bytes)) : fs q = some (.file bytes) := by
  unfold osMkdirAll at h
  simp only [] at h
  cases hf : pf.mkdirAllFault p with
  | some mc =>
    rw [hf] at h
    exact mkdirs_file _ _ _ _ h
  | none =>
    rw [hf] at h
    simp only [] at h
    split_ifs at h
    · exact h
    · exact mkdirs_file _ _ _ _ h

theorem statIsNotExist_none (pf : Platform) (fs : FileSystem) (p : GoString)
    (h : statIsNotExist pf fs p = true) : fs p = none := by
  unfold statIsNotExist osStat at h
  cases hf : pf.statFault p with
  | some c => rw [hf] at h; simp [OsError.isNotExist] at h
  | none =>
    rw [hf] at h
    cases hp : fs p with
    | none => rfl
    | some n => rw [hp] at h; simp at h

/-- A folder that `os.Stat` found missing is a directory once `os.MkdirAll` has returned
`nil`. -/
theorem osMkdirAll_dir (pf : Platform) (fs : FileSystem) (p : GoString)
    (hmiss : statIsNotExist pf fs p = true) (hok : (osMkdirAll pf fs p).2 = none) :
    (osMkdirAll pf fs p).1 p = some .dir := by
  have hnone := statIsNotExist_none pf fs p hmiss
  unfold osMkdirAll at hok ⊢
  simp only [] at hok ⊢
  cases hf : pf.mkdirAllFault p with
  | some mc =>
    rw [hf] at hok
    obtain ⟨made, code⟩ := mc
    simp at hok
  | none =>
    rw [hf] at hok
    simp only [] at hok ⊢
    split_ifs at hok ⊢ with hany
    simp [mkdirs, hnone]

/-- A directory stays a directory over a call of `moveFile`, whatever the call does. -/
theorem moveFile_keeps_dir (pf : Platform) (fs : FileSystem) (sourcePath targetPath q : GoString)
    (h : fs q = some .dir) : (moveFile pf fs sourcePath targetPath).1 q = some .dir := by
  unfold moveFile osOpen osStat osCreate ioCopy osRemove
  cases ho : pf.openFault sourcePath <;> simp only [ho]
  · cases hs : fs sourcePath <;> simp only [hs]
    · exact h
    · rename_i n
      cases hst : pf.statFault targetPath <;> simp only [hst]
      · cases ht : fs targetPath <;> simp only [ht]
        · simp only [OsError.isNotExist, Bool.true_eq_false, not_true_eq_false,
            not_false_eq_true, if_false]
          have hqt : q ≠ targetPath := by
            intro heq; rw [heq, ht] at h; cases h
          have hst2 : sourcePath ≠ targetPath := by
            intro heq; rw [heq, ht] at hs; cases hs
          cases hc : pf.createFault targetPath <;> simp only [hc]
          · have hsrc : (fs.set targetPath (some (.file []))) sourcePath = some n := by
              simp [FileSystem.set, hst2, hs]
            simp only [hsrc]
            cases n with
            | dir => simp [FileSystem.set, hqt, h]
            | file bytes =>
              simp only []
              cases hcp : pf.copyFault sourcePath targetPath <;> simp only [hcp]
              · have hsrc2 : ((fs.set targetPath (some (.file []))).set targetPath
                    (some (.file bytes))) sourcePath = some (.file bytes) := by
                  simp [FileSystem.set, hst2, hs]
                have hqs : q ≠ sourcePath := by
                  intro heq; rw [heq, hs] at h; cases h
                cases hr : pf.removeFault sourcePath <;> simp only [hr, hsrc2]
                · simp [FileSystem.set, hqt, hqs, h]
                · simp [FileSystem.set, hqt, h]
              · simp [FileSystem.set, hqt, h]
          · exact h
        · exact h
      · simp only [OsError.isNotExist, Bool.false_eq_true, not_false_eq_true, if_true]
        exact h
  · exact h

/-- C7, as stated, fails for the source directory `.`: its base name is `.`, which
`filepath.Join` cleans away; the file `AB2024C05D17` is moved into the folder
`out/17-05-2024`, whose final component is `17-05-2024`, not the base name of the source
directory. -/
theorem processDirectoryStep_destination_counterexample :
    processDirectoryStep examplePlatform (utf8 ".") (utf8 "out") 2 (utf8 "??ГГГГ?ММ?ДД")
        dotFS (utf8 "AB2024C05D17") exampleInfo none
      = .returned dotMoved none
          [.folderCreated (utf8 "out/17-05-2024"),
            .moved (utf8 "AB2024C05D17") (utf8 "out/17-05-2024/AB2024C05D17")] ∧
    dotMoved (utf8 "out/17-05-2024/AB2024C05D17") = some (.file [7, 8, 9]) ∧
    filepathBase (utf8 "out/17-05-2024") = utf8 "17-05-2024" ∧
    filepathBase (utf8 ".") = utf8 "." ∧
    filepathBase (utf8 "out/17-05-2024") ≠ filepathBase (utf8 ".") :=
  ⟨by rfl, by decide, by decide, by decide, by decide⟩

/-- C7, amended: for a candidate file whose date was extracted as `(year, month, day)`
the walk function returns, and what it did is at the folder
`F = Join(targetBaseDir, day-month-year, Base(sourceDir))` and the target path
`T = Join(F, info.Name())`. When `os.Stat` finds `F` missing, `os.MkdirAll(F)` is called:
its failure is returned, and after its success `F` is a directory of the file system left
behind and the log says so. Then `moveFile(path, T)` is called (on the file system with
`F` made): the file system left behind is the one that call leaves, and the log names `path`
and `T`; a move that succeeds leaves the bytes of the file at `T` and nothing at `path`. The
dated component is day, month, year joined by `-`: `"17-05-2024"` for
`("2024", "05", "17")`. The final component of the folder is the base name of the source
directory unless that base name is `.`, `..` or `/`. -/
theorem processDirectoryStep_destination (pf : Platform) (sourceDir targetBaseDir : GoString)
    (minFileSize : Int) (template : GoString) (fs : FileSystem) (path : GoString)
    (info : FileInfo) (year month day : GoString)
    (hcand : info.isDir = false ∧ minFileSize ≤ info.size)
    (hdate : extractDate info.name template = .ok year month day) :
    ∃ fs' r log,
      processDirectoryStep pf sourceDir targetBaseDir minFileSize template fs path info none
        = .returned fs' r log ∧
      (statIsNotExist pf fs (pf.join [targetBaseDir, day ++ utf8 "-" ++ month ++ utf8 "-" ++ year,
            pf.base sourceDir]) = true →
        (∃ e, osMkdirAll pf fs (pf.join [targetBaseDir, day ++ utf8 "-" ++ month ++ utf8 "-" ++ year,
            pf.base sourceDir]) = (fs', some e) ∧ r = some e ∧
          log = [.mkdirFailed (pf.join [targetBaseDir, day ++ utf8 "-" ++ month ++ utf8 "-" ++ year,
            pf.base sourceDir]) e]) ∨
        ((osMkdirAll pf fs (pf.join [targetBaseDir, day ++ utf8 "-" ++ month ++ utf8 "-" ++ year,
            pf.base sourceDir])).2 = none ∧ fs' (pf.join [targetBaseDir, day ++ utf8 "-" ++ month ++ utf8 "-" ++ year,
            pf.base sourceDir]) = some .dir ∧
          fs' = (moveFile pf (osMkdirAll pf fs (pf.join [targetBaseDir, day ++ utf8 "-" ++ month ++ utf8 "-" ++ year,
            pf.base sourceDir])).1 path (pf.join [pf.join [targetBaseDir, day ++ utf8 "-" ++ month ++ utf8 "-" ++ year,
            pf.base sourceDir], info.name])).1 ∧ r = none ∧
          (((moveFile pf (osMkdirAll pf fs (pf.join [targetBaseDir, day ++ utf8 "-" ++ month ++ utf8 "-" ++ year,
            pf.base sourceDir])).1 path (pf.join [pf.join [targetBaseDir, day ++ utf8 "-" ++ month ++ utf8 "-" ++ year,
            pf.base sourceDir], info.name])).2 = none ∧
              log = [.folderCreated (pf.join [targetBaseDir, day ++ utf8 "-" ++ month ++ utf8 "-" ++ year,
            pf.base sourceDir]), .moved path (pf.join [pf.join [targetBaseDir, day ++ utf8 "-" ++ month ++ utf8 "-" ++ year,
            pf.base sourceDir], info.name])]) ∨
            ∃ e, (moveFile pf (osMkdirAll pf fs (pf.join [targetBaseDir, day ++ utf8 "-" ++ month ++ utf8 "-" ++ year,
            pf.base sourceDir])).1 path (pf.join [pf.join [targetBaseDir, day ++ utf8 "-" ++ month ++ utf8 "-" ++ year,
            pf.base sourceDir], info.name])).2 = some e ∧
              log = [.folderCreated (pf.join [targetBaseDir, day ++ utf8 "-" ++ month ++ utf8 "-" ++ year,
            pf.base sourceDir]), .moveFailed path (pf.join [pf.join [targetBaseDir, day ++ utf8 "-" ++ month ++ utf8 "-" ++ year,
            pf.base sourceDir], info.name]) e]))) ∧
      (statIsNotExist pf fs (pf.join [targetBaseDir, day ++ utf8 "-" ++ month ++ utf8 "-" ++ year,
            pf.base sourceDir]) = false →
        fs' = (moveFile pf fs path (pf.join [pf.join [targetBaseDir, day ++ utf8 "-" ++ month ++ utf8 "-" ++ year,
            pf.base sourceDir], info.name])).1 ∧ r = none ∧
        (((moveFile pf fs path (pf.join [pf.join [targetBaseDir, day ++ utf8 "-" ++ month ++ utf8 "-" ++ year,
            pf.base sourceDir], info.name])).2 = none ∧ log = [.moved path (pf.join [pf.join [targetBaseDir, day ++ utf8 "-" ++ month ++ utf8 "-" ++ year,
            pf.base sourceDir], info.name])]) ∨
          ∃ e, (moveFile pf fs path (pf.join [pf.join [targetBaseDir, day ++ utf8 "-" ++ month ++ utf8 "-" ++ year,
            pf.base sourceDir], info.name])).2 = some e ∧ log = [.moveFailed path (pf.join [pf.join [targetBaseDir, day ++ utf8 "-" ++ month ++ utf8 "-" ++ year,
            pf.base sourceDir], info.name]) e])) ∧
      (.moved path (pf.join [pf.join [targetBaseDir, day ++ utf8 "-" ++ month ++ utf8 "-" ++ year,
            pf.base sourceDir], info.name]) ∈ log →
        ∃ bytes, fs path = some (.file bytes) ∧ fs' (pf.join [pf.join [targetBaseDir, day ++ utf8 "-" ++ month ++ utf8 "-" ++ year,
            pf.base sourceDir], info.name]) = some (.file bytes) ∧
          fs' path = none) ∧
      dateFolder (utf8 "2024") (utf8 "05") (utf8 "17") = utf8 "17-05-2024" ∧
      (pf.join = filepathJoin → pf.base = filepathBase →
        pf.base sourceDir ≠ utf8 "." → pf.base sourceDir ≠ utf8 ".." →
        pf.base sourceDir ≠ utf8 "/" →
        filepathBase (pf.join [targetBaseDir, day ++ utf8 "-" ++ month ++ utf8 "-" ++ year,
            pf.base sourceDir]) = pf.base sourceDir) := by
  have hfinal : pf.join = filepathJoin → pf.base = filepathBase →
      pf.base sourceDir ≠ utf8 "." → pf.base sourceDir ≠ utf8 ".." →
      pf.base sourceDir ≠ utf8 "/" →
      filepathBase (pf.join [targetBaseDir, day ++ utf8 "-" ++ month ++ utf8 "-" ++ year,
            pf.base sourceDir]) = pf.base sourceDir := by
    intro hj hb h1 h2 h3
    rw [hj, hb] at *
    exact filepathBase_filepathJoin
      [targetBaseDir, day ++ utf8 "-" ++ month ++ utf8 "-" ++ year] (filepathBase sourceDir)
      (filepathBase_plain sourceDir h1 h2 h3)
  have hcases := processDirectoryStep_dated pf sourceDir targetBaseDir minFileSize template fs
    path info year month day hcand hdate
  simp only [dateFolder] at hcases
  rcases hcases with ⟨hm, ⟨fs1, e, hmk, heq⟩ | ⟨fs1, fs2, e, hmk, hmv, heq⟩ |
      ⟨fs1, fs2, hmk, hmv, heq⟩⟩ | ⟨hm, ⟨fs2, e, hmv, heq⟩ | ⟨fs2, hmv, heq⟩⟩
  · refine ⟨fs1, some e, _, heq, ?_, ?_, ?_, by decide, hfinal⟩
    · intro _; exact Or.inl ⟨e, hmk, rfl, rfl⟩
    · intro hf; rw [hm] at hf; cases hf
    · intro hmem; simp at hmem
  · have hok : (osMkdirAll pf fs (pf.join [targetBaseDir, day ++ utf8 "-" ++ month ++ utf8 "-" ++ year,
            pf.base sourceDir])).2 = none := by rw [hmk]
    have hfs1 : (osMkdirAll pf fs (pf.join [targetBaseDir, day ++ utf8 "-" ++ month ++ utf8 "-" ++ year,
            pf.base sourceDir])).1 = fs1 := by rw [hmk]
    have hdir := osMkdirAll_dir pf fs _ hm hok
    rw [hfs1] at hdir
    have hdir2 := moveFile_keeps_dir pf fs1 path (pf.join [pf.join [targetBaseDir, day ++ utf8 "-" ++ month ++ utf8 "-" ++ year,
            pf.base sourceDir], info.name]) _ hdir
    rw [hmv] at hdir2
    refine ⟨fs2, none, _, heq, ?_, ?_, ?_, by decide, hfinal⟩
    · intro _
      refine Or.inr ⟨hok, hdir2, ?_, rfl, Or.inr ⟨e, ?_, rfl⟩⟩
      · rw [hfs1, hmv]
      · rw [hfs1, hmv]
    · intro hf; rw [hm] at hf; cases hf
    · intro hmem; simp at hmem
  · have hok : (osMkdirAll pf fs (pf.join [targetBaseDir, day ++ utf8 "-" ++ month ++ utf8 "-" ++ year,
            pf.base sourceDir])).2 = none := by rw [hmk]
    have hfs1 : (osMkdirAll pf fs (pf.join [targetBaseDir, day ++ utf8 "-" ++ month ++ utf8 "-" ++ year,
            pf.base sourceDir])).1 = fs1 := by rw [hmk]
    have hdir := osMkdirAll_dir pf fs _ hm hok
    rw [hfs1] at hdir
    have hdir2 := moveFile_keeps_dir pf fs1 path (pf.join [pf.join [targetBaseDir, day ++ utf8 "-" ++ month ++ utf8 "-" ++ year,
            pf.base sourceDir], info.name]) _ hdir
    rw [hmv] at hdir2
    refine ⟨fs2, none, _, heq, ?_, ?_, ?_, by decide, hfinal⟩
    · intro _
      refine Or.inr ⟨hok, hdir2, ?_, rfl, Or.inl ⟨?_, rfl⟩⟩
      · rw [hfs1, hmv]
      · rw [hfs1, hmv]
    · intro hf; rw [hm] at hf; cases hf
    · intro _
      have h2 : (moveFile pf fs1 path (pf.join [pf.join [targetBaseDir, day ++ utf8 "-" ++ month ++ utf8 "-" ++ year,
            pf.base sourceDir], info.name])).2 = none := by rw [hmv]
      obtain ⟨bytes, hs, ht, hp⟩ := moveFile_ok_effect pf fs1 path _ h2
      rw [hmv] at ht hp
      rw [← hfs1] at hs
      exact ⟨bytes, osMkdirAll_file _ _ _ _ _ hs, ht, hp⟩
  · refine ⟨fs2, none, _, heq, ?_, ?_, ?_, by decide, hfinal⟩
    · intro hf; rw [hm] at hf; cases hf
    · intro _
      refine ⟨?_, rfl, Or.inr ⟨e, ?_, rfl⟩⟩
      · rw [hmv]
      · rw [hmv]
    · intro hmem; simp at hmem
  · refine ⟨fs2, none, _, heq, ?_, ?_, ?_, by decide, hfinal⟩
    · intro hf; rw [hm] at hf; cases hf
    · intro _
      refine ⟨?_, rfl, Or.inl ⟨?_, rfl⟩⟩
      · rw [hmv]
      · rw [hmv]
    · intro _
      have h2 : (moveFile pf fs path (pf.join [pf.join [targetBaseDir, day ++ utf8 "-" ++ month ++ utf8 "-" ++ year,
            pf.base sourceDir], info.name])).2 = none := by rw [hmv]
      obtain ⟨bytes, hs, ht, hp⟩ := moveFile_ok_effect pf fs path _ h2
      rw [hmv] at ht hp
      exact ⟨bytes, hs, ht, hp⟩

/-- C7, at the example file system: the call for the file `in/1/AB2024C05D17` of the source
directory `in/1` returns, having made the folder `out/17-05-2024/1` and moved the file to
`out/17-05-2024/1/AB2024C05D17`. -/
theorem processDirectoryStep_destination_witness :
    ∃ fs' r log,
      processDirectoryStep examplePlatform (utf8 "in/1") (utf8 "out") 2 (utf8 "??ГГГГ?ММ?ДД")
        exampleFS (utf8 "in/1/AB2024C05D17") exampleInfo none = .returned fs' r log ∧
      fs' (utf8 "out/17-05-2024/1") = some .dir ∧
      fs' (utf8 "out/17-05-2024/1/AB2024C05D17") = some (.file [7, 8, 9]) ∧
      fs' (utf8 "in/1/AB2024C05D17") = none ∧
      log = [.folderCreated (utf8 "out/17-05-2024/1"),
        .moved (utf8 "in/1/AB2024C05D17") (utf8 "out/17-05-2024/1/AB2024C05D17")] := by
  obtain ⟨fs', r, log, hs, hmiss, _, hmoved, _, _⟩ :=
    processDirectoryStep_destination examplePlatform (utf8 "in/1") (utf8 "out") 2
      (utf8 "??ГГГГ?ММ?ДД") exampleFS (utf8 "in/1/AB2024C05D17") exampleInfo
      (utf8 "2024") (utf8 "05") (utf8 "17") (by decide) (by decide)
  have hmk : (osMkdirAll examplePlatform exampleFS (utf8 "out/17-05-2024/1")).2 = none := by
    decide
  have hmv : (moveFile examplePlatform
      (osMkdirAll examplePlatform exampleFS (utf8 "out/17-05-2024/1")).1
      (utf8 "in/1/AB2024C05D17") (utf8 "out/17-05-2024/1/AB2024C05D17")).2 = none := by
    decide
  have hsrc : exampleFS (utf8 "in/1/AB2024C05D17") = some (.file [7, 8, 9]) := by decide
  rcases hmiss (by decide) with ⟨e, hfail, _, _⟩ | ⟨_, hdir, _, _, ⟨_, hlog⟩ | ⟨e, hfail, _⟩⟩
  · have h2 := congrArg Prod.snd hfail
    exact absurd (hmk.symm.trans h2) (by simp)
  · obtain ⟨bytes, hb, ht, hp⟩ := hmoved (by rw [hlog]; simp)
    have hbytes : bytes = [7, 8, 9] := by
      have := hsrc.symm.trans hb
      simpa using this.symm
    subst hbytes
    exact ⟨fs', r, log, hs, hdir, ht, hp, hlog⟩
  · exact absurd (hmv.symm.trans hfail) (by simp)

/-- C9, as stated, fails: the file `in/1/README-FIRST.txt` is not a directory and has at
least the minimum size, its name holds no date, and the call for it ends after the date
extraction: no folder is created and `moveFile` is not performed. -/
theorem processDirectoryStep_candidates_counterexample :
    (readmeInfo.isDir = false ∧ (1 : Int) ≤ readmeInfo.size) ∧
    processDirectoryStep examplePlatform (utf8 "in/1") (utf8 "out") 1 (utf8 "??ГГГГ?ММ?ДД")
        exampleFS (utf8 "in/1/README-FIRST.txt") readmeInfo none
      = .returned exampleFS none [.extractFailed readmeInfo.name (.parseYear .errSyntax)] :=
  ⟨by decide, by rfl⟩

/-- C9, amended: for an entry visited without a traversal error, the walk function does
nothing (returns `nil`, leaves the file system as it was, logs nothing) exactly when the
entry is a directory or smaller than `minFileSize`, whatever its name; for a file of size
at least `minFileSize` the date extraction is performed and decides what follows: its panic
and its error end the call, and only after a date is extracted the call goes on, to end
either with the failure of the folder creation or with `moveFile` performed on `path` and
the target path. -/
theorem processDirectoryStep_candidates (pf : Platform) (sourceDir targetBaseDir : GoString)
    (minFileSize : Int) (template : GoString) (fs : FileSystem) (path : GoString)
    (info : FileInfo) :
    ((info.isDir = false ∧ minFileSize ≤ info.size) ↔
      processDirectoryStep pf sourceDir targetBaseDir minFileSize template fs path info none
        ≠ .returned fs none []) ∧
    ((info.isDir = true ∨ info.size < minFileSize) →
      processDirectoryStep pf sourceDir targetBaseDir minFileSize template fs path info none
        = .returned fs none []) ∧
    ((info.isDir = false ∧ minFileSize ≤ info.size) →
      (extractDate info.name template = .panic →
        processDirectoryStep pf sourceDir targetBaseDir minFileSize template fs path info none
          = .panic) ∧
      (∀ e, extractDate info.name template = .error e →
        processDirectoryStep pf sourceDir targetBaseDir minFileSize template fs path info none
          = .returned fs none [.extractFailed info.name e]) ∧
      (∀ year month day, extractDate info.name template = .ok year month day →
        ∃ fs' r log,
          processDirectoryStep pf sourceDir targetBaseDir minFileSize template fs path info
            none = .returned fs' r log ∧
          ((∃ e, r = some e ∧ log = [.mkdirFailed
              (pf.join [targetBaseDir, dateFolder year month day, pf.base sourceDir]) e]) ∨
           (r = none ∧
            (.moved path (pf.join
                [pf.join [targetBaseDir, dateFolder year month day, pf.base sourceDir],
                  info.name]) ∈ log ∨
             ∃ e, .moveFailed path (pf.join
                [pf.join [targetBaseDir, dateFolder year month day, pf.base sourceDir],
                  info.name]) e ∈ log))))) := by
  have hskip : (info.isDir = true ∨ info.size < minFileSize) →
      processDirectoryStep pf sourceDir targetBaseDir minFileSize template fs path info none
        = .returned fs none [] := by
    intro h
    apply processDirectoryStep_skip
    rintro ⟨h1, h2⟩
    rcases h with h | h
    · rw [h1] at h; cases h
    · omega
  have hdated : ∀ year month day, (info.isDir = false ∧ minFileSize ≤ info.size) →
      extractDate info.name template = .ok year month day →
      ∃ fs' r log,
        processDirectoryStep pf sourceDir targetBaseDir minFileSize template fs path info
          none = .returned fs' r log ∧
        ((∃ e, r = some e ∧ log = [.mkdirFailed
            (pf.join [targetBaseDir, dateFolder year month day, pf.base sourceDir]) e]) ∨
         (r = none ∧
          (.moved path (pf.join
              [pf.join [targetBaseDir, dateFolder year month day, pf.base sourceDir],
                info.name]) ∈ log ∨
           ∃ e, .moveFailed path (pf.join
              [pf.join [targetBaseDir, dateFolder year month day, pf.base sourceDir],
                info.name]) e ∈ log))) := by
    intro year month day hc hx
    rcases processDirectoryStep_dated pf sourceDir targetBaseDir minFileSize template fs
      path info year month day hc hx with
      ⟨_, ⟨fs1, e, _, heq⟩ | ⟨fs1, fs2, e, _, _, heq⟩ | ⟨fs1, fs2, _, _, heq⟩⟩ |
      ⟨_, ⟨fs2, e, _, heq⟩ | ⟨fs2, _, heq⟩⟩
    · exact ⟨_, _, _, heq, Or.inl ⟨e, rfl, rfl⟩⟩
    · exact ⟨_, _, _, heq, Or.inr ⟨rfl, Or.inr ⟨e, by simp⟩⟩⟩
    · exact ⟨_, _, _, heq, Or.inr ⟨rfl, Or.inl (by simp)⟩⟩
    · exact ⟨_, _, _, heq, Or.inr ⟨rfl, Or.inr ⟨e, by simp⟩⟩⟩
    · exact ⟨_, _, _, heq, Or.inr ⟨rfl, Or.inl (by simp)⟩⟩
  refine ⟨⟨?_, ?_⟩, hskip, fun hc => ⟨?_, ?_, fun y m d hx => hdated y m d hc hx⟩⟩
  · intro hc heq
    cases hx : extractDate info.name template with
    | panic =>
      rw [processDirectoryStep_extractPanic pf sourceDir targetBaseDir minFileSize template
        fs path info hc hx] at heq
      cases heq
    | error e =>
      rw [processDirectoryStep_extractError pf sourceDir targetBaseDir minFileSize template
        fs path info e hc hx] at heq
      simp at heq
    | ok year month day =>
      obtain ⟨fs', r, log, hs, hlog⟩ := hdated year month day hc hx
      rw [hs] at heq
      simp only [StepResult.returned.injEq] at heq
      obtain ⟨_, rfl, rfl⟩ := heq
      simp at hlog
  · intro hne
    by_contra hc
    exact hne (processDirectoryStep_skip pf sourceDir targetBaseDir minFileSize template fs
      path info hc)
  · exact processDirectoryStep_extractPanic pf sourceDir targetBaseDir minFileSize template
      fs path info hc
  · intro e hx
    exact processDirectoryStep_extractError pf sourceDir targetBaseDir minFileSize template
      fs path info e hc hx

/-- C9, at the example file system: the file `in/1/notes` of one byte is below the minimum
size 2, and the call for it does nothing. -/
theorem processDirectoryStep_candidates_witness :
    processDirectoryStep examplePlatform (utf8 "in/1") (utf8 "out") 2 (utf8 "??ГГГГ?ММ?ДД")
      exampleFS (utf8 "in/1/notes") notesInfo none = .returned exampleFS none [] :=
  (processDirectoryStep_candidates examplePlatform (utf8 "in/1") (utf8 "out") 2
    (utf8 "??ГГГГ?ММ?ДД") exampleFS (utf8 "in/1/notes") notesInfo).2.1 (by decide)

theorem processDirectoryStep_errors_core (pf : Platform) (sourceDir targetBaseDir : GoString)
    (minFileSize : Int) (template : GoString) (fs : FileSystem) (path : GoString)
    (info : FileInfo) (err : Option OsError) (fs' : FileSystem) (r : Option OsError)
    (log : List LogEvent)
    (hstep : processDirectoryStep pf sourceDir targetBaseDir minFileSize template fs path
      info err = .returned fs' r log) :
    (∀ e, r = some e →
      (err = some e ∧ fs' = fs ∧ log = []) ∨
      (err = none ∧ ∃ folder, statIsNotExist pf fs folder = true ∧
        osMkdirAll pf fs folder = (fs', some e) ∧ log = [.mkdirFailed folder e])) ∧
    (∀ e, err = some e → r = some e) ∧
    (∀ e, err = none → info.isDir = false ∧ minFileSize ≤ info.size →
      extractDate info.name template = .error e →
      r = none ∧ fs' = fs ∧ log = [.extractFailed info.name e]) ∧
    (∀ p t e, .moveFailed p t e ∈ log →
      r = none ∧ ∃ fs1, moveFile pf fs1 p t = (fs', some e)) := by
  cases err with
  | some e0 =>
    rw [processDirectoryStep_traversalError] at hstep
    simp only [StepResult.returned.injEq] at hstep
    obtain ⟨rfl, rfl, rfl⟩ := hstep
    refine ⟨?_, ?_, ?_, ?_⟩
    · intro e he; exact Or.inl ⟨he, rfl, rfl⟩
    · intro e he; exact he
    · intro e he; cases he
    · intro p t e hmem; simp at hmem
  | none =>
    by_cases hc : info.isDir = false ∧ minFileSize ≤ info.size
    · cases hx : extractDate info.name template with
      | panic =>
        rw [processDirectoryStep_extractPanic pf sourceDir targetBaseDir minFileSize template
          fs path info hc hx] at hstep
        cases hstep
      | error e0 =>
        rw [processDirectoryStep_extractError pf sourceDir targetBaseDir minFileSize template
          fs path info e0 hc hx] at hstep
        simp only [StepResult.returned.injEq] at hstep
        obtain ⟨rfl, rfl, rfl⟩ := hstep
        refine ⟨?_, ?_, ?_, ?_⟩
        · intro e he; cases he
        · intro e he; cases he
        · intro e _ _ he
          simp only [ExtractResult.error.injEq] at he
          subst he
          exact ⟨rfl, rfl, rfl⟩
        · intro p t e hmem; simp at hmem
      | ok year month day =>
        refine ⟨?_, ?_, ?_, ?_⟩
        · intro e he
          right
          refine ⟨rfl, ?_⟩
          rcases processDirectoryStep_dated pf sourceDir targetBaseDir minFileSize template fs
            path info year month day hc hx with
            ⟨hm, ⟨fs1, e1, hmk, heq⟩ | ⟨fs1, fs2, e1, _, _, heq⟩ | ⟨fs1, fs2, _, _, heq⟩⟩ |
            ⟨_, ⟨fs2, e1, _, heq⟩ | ⟨fs2, _, heq⟩⟩ <;>
            rw [hstep] at heq <;>
            simp only [StepResult.returned.injEq] at heq <;>
            obtain ⟨rfl, rfl, rfl⟩ := heq
          · simp only [Option.some.injEq] at he
            subst he
            exact ⟨_, hm, hmk, rfl⟩
          · cases he
          · cases he
          · cases he
          · cases he
        · intro e he; cases he
        · intro e _ _ he; cases he
        · intro p t e hmem
          rcases processDirectoryStep_dated pf sourceDir targetBaseDir minFileSize template fs
            path info year month day hc hx with
            ⟨hm, ⟨fs1, e1, hmk, heq⟩ | ⟨fs1, fs2, e1, _, hmv, heq⟩ | ⟨fs1, fs2, _, _, heq⟩⟩ |
            ⟨_, ⟨fs2, e1, hmv, heq⟩ | ⟨fs2, _, heq⟩⟩ <;>
            rw [hstep] at heq <;>
            simp only [StepResult.returned.injEq] at heq <;>
            obtain ⟨rfl, rfl, rfl⟩ := heq
          · simp at hmem
          · simp at hmem
            obtain ⟨rfl, rfl, rfl⟩ := hmem
            exact ⟨rfl, fs1, hmv⟩
          · simp at hmem
          · simp at hmem
            obtain ⟨rfl, rfl, rfl⟩ := hmem
            exact ⟨rfl, fs, hmv⟩
          · simp at hmem
    · rw [processDirectoryStep_skip pf sourceDir targetBaseDir minFileSize template fs path
        info hc] at hstep
      simp only [StepResult.returned.injEq] at hstep
      obtain ⟨rfl, rfl, rfl⟩ := hstep
      refine ⟨?_, ?_, ?_, ?_⟩
      · intro e he; cases he
      · intro e he; cases he
      · intro e _ hc2; exact absurd hc2 hc
      · intro p t e hmem; simp at hmem

/-- C10: the walk function returns a non-nil error only when the traversal passed one in
(which it returns at once) or when `os.Stat` found the destination folder missing and
`os.MkdirAll` of it failed, and that error ends the walk of the source directory. When
`extractDate` fails the call returns `nil`, with the file system as it was and only that
failure logged (no folder is created, no file is moved), and when `moveFile` fails the call
returns `nil`, with the file system `moveFile` left and the failure logged; in both cases
the walk goes on with the next entry. -/
theorem processDirectoryStep_errors (pf : Platform) (sourceDir targetBaseDir : GoString)
    (minFileSize : Int) (template : GoString) (fs : FileSystem) (path : GoString)
    (info : FileInfo) :
    (∀ e vs, processDirectoryStep pf sourceDir targetBaseDir minFileSize template fs path info (some e) = .returned fs (some e) [] ∧
      processDirectory pf sourceDir targetBaseDir minFileSize template fs (⟨path, info, some e⟩ :: vs) = .returned fs (some e) []) ∧
    (∀ e vs, info.isDir = false ∧ minFileSize ≤ info.size →
      extractDate info.name template = .error e →
      processDirectoryStep pf sourceDir targetBaseDir minFileSize template fs path info none = .returned fs none [.extractFailed info.name e] ∧
      processDirectory pf sourceDir targetBaseDir minFileSize template fs (⟨path, info, none⟩ :: vs) =
        (processDirectory pf sourceDir targetBaseDir minFileSize template fs vs).after [.extractFailed info.name e]) ∧
    (∀ year month day vs, info.isDir = false ∧ minFileSize ≤ info.size →
      extractDate info.name template = .ok year month day →
      (statIsNotExist pf fs (pf.join [targetBaseDir, dateFolder year month day, pf.base sourceDir]) = true →
        ∀ e, (osMkdirAll pf fs (pf.join [targetBaseDir, dateFolder year month day, pf.base sourceDir])).2 = some e →
          processDirectoryStep pf sourceDir targetBaseDir minFileSize template fs path info none = .returned (osMkdirAll pf fs (pf.join [targetBaseDir, dateFolder year month day, pf.base sourceDir])).1 (some e) [.mkdirFailed (pf.join [targetBaseDir, dateFolder year month day, pf.base sourceDir]) e] ∧
          processDirectory pf sourceDir targetBaseDir minFileSize template fs (⟨path, info, none⟩ :: vs) =
            .returned (osMkdirAll pf fs (pf.join [targetBaseDir, dateFolder year month day, pf.base sourceDir])).1 (some e) [.mkdirFailed (pf.join [targetBaseDir, dateFolder year month day, pf.base sourceDir]) e]) ∧
      (statIsNotExist pf fs (pf.join [targetBaseDir, dateFolder year month day, pf.base sourceDir]) = true → (osMkdirAll pf fs (pf.join [targetBaseDir, dateFolder year month day, pf.base sourceDir])).2 = none →
        ∀ e, (moveFile pf (osMkdirAll pf fs (pf.join [targetBaseDir, dateFolder year month day, pf.base sourceDir])).1 path (pf.join [pf.join [targetBaseDir, dateFolder year month day, pf.base sourceDir],
            info.name])).2 = some e →
          processDirectoryStep pf sourceDir targetBaseDir minFileSize template fs path info none = .returned (moveFile pf (osMkdirAll pf fs (pf.join [targetBaseDir, dateFolder year month day, pf.base sourceDir])).1 path (pf.join [pf.join [targetBaseDir, dateFolder year month day, pf.base sourceDir],
            info.name])).1 none
            [.folderCreated (pf.join [targetBaseDir, dateFolder year month day, pf.base sourceDir]), .moveFailed path (pf.join [pf.join [targetBaseDir, dateFolder year month day, pf.base sourceDir],
            info.name]) e] ∧
          processDirectory pf sourceDir targetBaseDir minFileSize template fs (⟨path, info, none⟩ :: vs) =
            (processDirectory pf sourceDir targetBaseDir minFileSize template (moveFile pf (osMkdirAll pf fs (pf.join [targetBaseDir, dateFolder year month day, pf.base sourceDir])).1 path (pf.join [pf.join [targetBaseDir, dateFolder year month day, pf.base sourceDir],
            info.name])).1 vs).after
              [.folderCreated (pf.join [targetBaseDir, dateFolder year month day, pf.base sourceDir]), .moveFailed path (pf.join [pf.join [targetBaseDir, dateFolder year month day, pf.base sourceDir],
            info.name]) e]) ∧
      (statIsNotExist pf fs (pf.join [targetBaseDir, dateFolder year month day, pf.base sourceDir]) = false →
        ∀ e, (moveFile pf fs path (pf.join [pf.join [targetBaseDir, dateFolder year month day, pf.base sourceDir],
            info.name])).2 = some e →
          processDirectoryStep pf sourceDir targetBaseDir minFileSize template fs path info none = .returned (moveFile pf fs path (pf.join [pf.join [targetBaseDir, dateFolder year month day, pf.base sourceDir],
            info.name])).1 none
            [.moveFailed path (pf.join [pf.join [targetBaseDir, dateFolder year month day, pf.base sourceDir],
            info.name]) e] ∧
          processDirectory pf sourceDir targetBaseDir minFileSize template fs (⟨path, info, none⟩ :: vs) =
            (processDirectory pf sourceDir targetBaseDir minFileSize template (moveFile pf fs path (pf.join [pf.join [targetBaseDir, dateFolder year month day, pf.base sourceDir],
            info.name])).1 vs).after [.moveFailed path (pf.join [pf.join [targetBaseDir, dateFolder year month day, pf.base sourceDir],
            info.name]) e])) ∧
    (∀ err fs' e log, processDirectoryStep pf sourceDir targetBaseDir minFileSize template fs path info err = .returned fs' (some e) log →
      (err = some e ∧ fs' = fs ∧ log = []) ∨
      (err = none ∧ ∃ folder, statIsNotExist pf fs folder = true ∧
        osMkdirAll pf fs folder = (fs', some e) ∧ log = [.mkdirFailed folder e])) := by
  refine ⟨?_, ?_, ?_, ?_⟩
  · intro e vs
    have hs := processDirectoryStep_traversalError pf sourceDir targetBaseDir minFileSize
      template fs path info e
    refine ⟨hs, ?_⟩
    rw [processDirectory]
    simp only [hs]
  · intro e vs hc hx
    have hs := processDirectoryStep_extractError pf sourceDir targetBaseDir minFileSize
      template fs path info e hc hx
    refine ⟨hs, ?_⟩
    rw [processDirectory]
    simp only [hs]
  · intro year month day vs hc hx
    have hcases := processDirectoryStep_dated pf sourceDir targetBaseDir minFileSize template
      fs path info year month day hc hx
    refine ⟨?_, ?_, ?_⟩
    · intro hmiss e he
      rcases hcases with ⟨_, ⟨fs1, e1, hmk, heq⟩ | ⟨fs1, fs2, e1, hmk, hmv, heq⟩ |
          ⟨fs1, fs2, hmk, hmv, heq⟩⟩ | ⟨hm, _⟩
      · rw [hmk] at he ⊢
        simp only [Option.some.injEq] at he
        subst he
        refine ⟨heq, ?_⟩
        rw [processDirectory]
        simp only [heq]
      · rw [hmk] at he; cases he
      · rw [hmk] at he; cases he
      · rw [hm] at hmiss; cases hmiss
    · intro hmiss hok e he
      rcases hcases with ⟨_, ⟨fs1, e1, hmk, heq⟩ | ⟨fs1, fs2, e1, hmk, hmv, heq⟩ |
          ⟨fs1, fs2, hmk, hmv, heq⟩⟩ | ⟨hm, _⟩
      · rw [hmk] at hok; cases hok
      · rw [hmk] at he ⊢
        simp only [] at he ⊢
        rw [hmv] at he ⊢
        simp only [Option.some.injEq] at he
        subst he
        refine ⟨heq, ?_⟩
        rw [processDirectory]
        simp only [heq]
      · rw [hmk] at he
        simp only [] at he
        rw [hmv] at he; cases he
      · rw [hm] at hmiss; cases hmiss
    · intro hmiss e he
      rcases hcases with ⟨hm, _⟩ | ⟨_, ⟨fs2, e1, hmv, heq⟩ | ⟨fs2, hmv, heq⟩⟩
      · rw [hm] at hmiss; cases hmiss
      · rw [hmv] at he ⊢
        simp only [Option.some.injEq] at he
        subst he
        refine ⟨heq, ?_⟩
        rw [processDirectory]
        simp only [heq]
      · rw [hmv] at he; cases he
  · intro err fs' e log hstep
    exact (processDirectoryStep_errors_core pf sourceDir targetBaseDir minFileSize template
      fs path info err fs' (some e) log hstep).1 e rfl

/-- C10, at the example file system: a traversal error is returned at once; the call for
`in/1/README-FIRST.txt`, whose name holds no date, returns `nil` and the walk goes on; the
call for `in/1/AB2024C05D17` returns `nil` when `moveFile` finds the target there, and
returns the error of `os.MkdirAll` on the platform where that call fails. -/
theorem processDirectoryStep_errors_witness :
    processDirectoryStep examplePlatform (utf8 "in/1") (utf8 "out") 1 (utf8 "??ГГГГ?ММ?ДД")
        exampleFS (utf8 "in/1") notesInfo (some (.other 13))
      = .returned exampleFS (some (.other 13)) [] ∧
    (processDirectoryStep examplePlatform (utf8 "in/1") (utf8 "out") 1 (utf8 "??ГГГГ?ММ?ДД")
        exampleFS (utf8 "in/1/README-FIRST.txt") readmeInfo none
      = .returned exampleFS none [.extractFailed readmeInfo.name (.parseYear .errSyntax)] ∧
     processDirectory examplePlatform (utf8 "in/1") (utf8 "out") 1 (utf8 "??ГГГГ?ММ?ДД")
        exampleFS [⟨utf8 "in/1/README-FIRST.txt", readmeInfo, none⟩]
      = (processDirectory examplePlatform (utf8 "in/1") (utf8 "out") 1 (utf8 "??ГГГГ?ММ?ДД")
          exampleFS []).after [.extractFailed readmeInfo.name (.parseYear .errSyntax)]) ∧
    processDirectoryStep examplePlatform (utf8 "in/1") (utf8 "out") 1 (utf8 "??ГГГГ?ММ?ДД")
        collisionFS (utf8 "in/1/AB2024C05D17") exampleInfo none
      = .returned
          (moveFile examplePlatform collisionFS (utf8 "in/1/AB2024C05D17")
            (utf8 "out/17-05-2024/1/AB2024C05D17")).1 none
          [.moveFailed (utf8 "in/1/AB2024C05D17") (utf8 "out/17-05-2024/1/AB2024C05D17")
            (.targetExists (utf8 "out/17-05-2024/1/AB2024C05D17"))] ∧
    processDirectoryStep readOnlyPlatform (utf8 "in/1") (utf8 "out") 1 (utf8 "??ГГГГ?ММ?ДД")
        exampleFS (utf8 "in/1/AB2024C05D17") exampleInfo none
      = .returned (osMkdirAll readOnlyPlatform exampleFS (utf8 "out/17-05-2024/1")).1
          (some (.other 13)) [.mkdirFailed (utf8 "out/17-05-2024/1") (.other 13)] :=
  ⟨((processDirectoryStep_errors examplePlatform (utf8 "in/1") (utf8 "out") 1
      (utf8 "??ГГГГ?ММ?ДД") exampleFS (utf8 "in/1") notesInfo).1 (.other 13) []).1,
   (processDirectoryStep_errors examplePlatform (utf8 "in/1") (utf8 "out") 1
      (utf8 "??ГГГГ?ММ?ДД") exampleFS (utf8 "in/1/README-FIRST.txt") readmeInfo).2.1
      (.parseYear .errSyntax) [] (by decide) (by decide),
   (((processDirectoryStep_errors examplePlatform (utf8 "in/1") (utf8 "out") 1
      (utf8 "??ГГГГ?ММ?ДД") collisionFS (utf8 "in/1/AB2024C05D17") exampleInfo).2.2.1
      (utf8 "2024") (utf8 "05") (utf8 "17") [] (by decide) (by decide)).2.2 (by decide)
      (.targetExists (utf8 "out/17-05-2024/1/AB2024C05D17")) (by decide)).1,
   (((processDirectoryStep_errors readOnlyPlatform (utf8 "in/1") (utf8 "out") 1
      (utf8 "??ГГГГ?ММ?ДД") exampleFS (utf8 "in/1/AB2024C05D17") exampleInfo).2.2.1
      (utf8 "2024") (utf8 "05") (utf8 "17") [] (by decide) (by decide)).1 (by decide)
      (.other 13) (by decide)).1⟩

/-! ## Further properties -/

/-- What `extractDate` does on every filename, multi-byte names included: for a template
of markers with no more markers than the filename has bytes, the fields are the filename
bytes at the byte positions of the markers, and the call succeeds exactly when each of the
three is accepted by `strconv.Atoi`; otherwise it fails with a date-parse error. -/
theorem extractDate_byte_fields (fileName template : GoString)
    (hm : ∀ r ∈ runes template, isMarker r = true)
    (hlen : (runes template).length ≤ fileName.length) :
    ((isIntText (charsAt 0x413 (runes template) fileName) ∧
        isIntText (charsAt 0x41C (runes template) fileName) ∧
        isIntText (charsAt 0x414 (runes template) fileName)) →
      extractDate fileName template = .ok (charsAt 0x413 (runes template) fileName)
        (charsAt 0x41C (runes template) fileName) (charsAt 0x414 (runes template) fileName)) ∧
    (¬ (isIntText (charsAt 0x413 (runes template) fileName) ∧
        isIntText (charsAt 0x41C (runes template) fileName) ∧
        isIntText (charsAt 0x414 (runes template) fileName)) →
      ∃ e, e.isDateParse = true ∧ extractDate fileName template = .error e) := by
  have hloop := extractLoop_markers fileName (runes template) ⟨[], [], [], 0⟩ hm
    (by simpa using hlen)
  simp only [List.nil_append, List.drop_zero] at hloop
  constructor
  · rintro ⟨hy, hmo, hd⟩
    unfold extractDate
    rw [hloop]
    simp only [atoi_complete _ hy, atoi_complete _ hmo, atoi_complete _ hd]
  · intro hnot
    rcases extractDate_of_finished fileName template _ hloop with h | h
    · exact h
    · exact absurd (extractDate_ok_isIntText _ _ _ _ _ h) hnot

/-- The byte positions of `extractDate`, at `"ф12345"` with the template `"??ГГМД"`. -/
theorem extractDate_byte_fields_witness :
    extractDate (utf8 "ф12345") (utf8 "??ГГМД")
      = .ok (charsAt 0x413 (runes (utf8 "??ГГМД")) (utf8 "ф12345"))
        (charsAt 0x41C (runes (utf8 "??ГГМД")) (utf8 "ф12345"))
        (charsAt 0x414 (runes (utf8 "??ГГМД")) (utf8 "ф12345")) :=
  (extractDate_byte_fields (utf8 "ф12345") (utf8 "??ГГМД") (by decide) (by decide)).1
    (extractDate_ok_isIntText (utf8 "ф12345") (utf8 "??ГГМД") (utf8 "12") (utf8 "3")
      (utf8 "4") (by decide))

/-- The panic of `extractDate`: when the template has as many markers as the filename has
bytes and then a Г, М or Д, the index `fileName[fileIndex]` is out of range. -/
theorem extractDate_pastEnd_panics (fileName template : GoString) (pre post : List Nat)
    (c : Nat) (h : runes template = pre ++ c :: post) (hm : ∀ r ∈ pre, isMarker r = true)
    (hlen : pre.length = fileName.length) (hc : c = 0x413 ∨ c = 0x41C ∨ c = 0x414) :
    extractDate fileName template = .panic := by
  unfold extractDate
  rw [h, extractLoop_pastEnd fileName pre post c hm hlen hc]

/-- The panic of `extractDate`, at `"20"` with the template `"ГГГГ"`. -/
theorem extractDate_pastEnd_panics_witness :
    extractDate (utf8 "20") (utf8 "ГГГГ") = .panic :=
  extractDate_pastEnd_panics (utf8 "20") (utf8 "ГГГГ") [0x413, 0x413] [0x413] 0x413
    (by decide) (by decide) (by decide) (by decide)

/-- A copy that fails part way: `moveFile` returns the copy error, the source keeps its
bytes and the target is left with the bytes written so far. -/
theorem moveFile_copy_fails (pf : Platform) (fs : FileSystem) (sourcePath targetPath : GoString)
    (bytes : GoString) (written code : Nat)
    (h1 : pf.openFault sourcePath = none) (h2 : fs sourcePath = some (.file bytes))
    (h3 : pf.statFault targetPath = none) (h4 : fs targetPath = none)
    (h5 : pf.createFault targetPath = none)
    (h6 : pf.copyFault sourcePath targetPath = some (written, code)) :
    (moveFile pf fs sourcePath targetPath).2 = some (.copyFailed (.other code)) ∧
    (moveFile pf fs sourcePath targetPath).1 sourcePath = some (.file bytes) ∧
    (moveFile pf fs sourcePath targetPath).1 targetPath
      = some (.file (bytes.take written)) := by
  have hne : sourcePath ≠ targetPath := by
    intro heq; rw [heq, h4] at h2; cases h2
  have hsrc : (fs.set targetPath (some (.file []))) sourcePath = some (.file bytes) := by
    simp [FileSystem.set, hne, h2]
  simp only [moveFile, osOpen, osStat, osCreate, ioCopy, h1, h2, h3, h4, h5, h6, hsrc,
    OsError.isNotExist]
  simp [FileSystem.set, hne, h2]

/-- A copy that fails part way, at the example file system. -/
theorem moveFile_copy_fails_witness :
    (moveFile brokenCopyPlatform exampleFS (utf8 "in/1/AB2024C05D17")
        (utf8 "out/AB2024C05D17")).2 = some (.copyFailed (.other 5)) ∧
    (moveFile brokenCopyPlatform exampleFS (utf8 "in/1/AB2024C05D17")
        (utf8 "out/AB2024C05D17")).1 (utf8 "in/1/AB2024C05D17") = some (.file [7, 8, 9]) ∧
    (moveFile brokenCopyPlatform exampleFS (utf8 "in/1/AB2024C05D17")
        (utf8 "out/AB2024C05D17")).1 (utf8 "out/AB2024C05D17")
      = some (.file (List.take 2 [7, 8, 9])) :=
  moveFile_copy_fails brokenCopyPlatform exampleFS (utf8 "in/1/AB2024C05D17")
    (utf8 "out/AB2024C05D17") [7, 8, 9] 2 5 rfl (by decide) rfl (by decide) rfl rfl

/-- A source that cannot be removed after the copy: `moveFile` returns the remove error
although both paths now hold the bytes, and a second call on the same paths fails because
the target exists. -/
theorem moveFile_remove_fails (pf : Platform) (fs : FileSystem)
    (sourcePath targetPath : GoString) (bytes : GoString) (code : Nat)
    (h1 : pf.openFault sourcePath = none) (h2 : fs sourcePath = some (.file bytes))
    (h3 : pf.statFault targetPath = none) (h4 : fs targetPath = none)
    (h5 : pf.createFault targetPath = none)
    (h6 : pf.copyFault sourcePath targetPath = none)
    (h7 : pf.removeFault sourcePath = some code) :
    (moveFile pf fs sourcePath targetPath).2 = some (.removeFailed (.other code)) ∧
    (moveFile pf fs sourcePath targetPath).1 sourcePath = some (.file bytes) ∧
    (moveFile pf fs sourcePath targetPath).1 targetPath = some (.file bytes) ∧
    (moveFile pf (moveFile pf fs sourcePath targetPath).1 sourcePath targetPath).2
      = some (.targetExists targetPath) := by
  have hne : sourcePath ≠ targetPath := by
    intro heq; rw [heq, h4] at h2; cases h2
  have hsrc : (fs.set targetPath (some (.file []))) sourcePath = some (.file bytes) := by
    simp [FileSystem.set, hne, h2]
  have hmv : moveFile pf fs sourcePath targetPath
      = (((fs.set targetPath (some (.file []))).set targetPath (some (.file bytes))),
          some (.removeFailed (.other code))) := by
    simp only [moveFile, osOpen, osStat, osCreate, ioCopy, osRemove, h1, h2, h3, h4, h5, h6,
      h7, hsrc, OsError.isNotExist]
    simp
  rw [hmv]
  have hs2 : ((fs.set targetPath (some (.file []))).set targetPath (some (.file bytes)))
      sourcePath = some (.file bytes) := by simp [FileSystem.set, hne, h2]
  have ht2 : ((fs.set targetPath (some (.file []))).set targetPath (some (.file bytes)))
      targetPath = some (.file bytes) := by simp [FileSystem.set]
  refine ⟨rfl, hs2, ht2, ?_⟩
  simp only [moveFile, osOpen, osStat, h1, h3, hs2, ht2]

/-- A source that cannot be removed, at the example file system. -/
theorem moveFile_remove_fails_witness :
    (moveFile keepSourcePlatform exampleFS (utf8 "in/1/AB2024C05D17")
        (utf8 "out/AB2024C05D17")).2 = some (.removeFailed (.other 13)) ∧
    (moveFile keepSourcePlatform exampleFS (utf8 "in/1/AB2024C05D17")
        (utf8 "out/AB2024C05D17")).1 (utf8 "in/1/AB2024C05D17") = some (.file [7, 8, 9]) ∧
    (moveFile keepSourcePlatform exampleFS (utf8 "in/1/AB2024C05D17")
        (utf8 "out/AB2024C05D17")).1 (utf8 "out/AB2024C05D17") = some (.file [7, 8, 9]) ∧
    (moveFile keepSourcePlatform
        (moveFile keepSourcePlatform exampleFS (utf8 "in/1/AB2024C05D17")
          (utf8 "out/AB2024C05D17")).1
        (utf8 "in/1/AB2024C05D17") (utf8 "out/AB2024C05D17")).2
      = some (.targetExists (utf8 "out/AB2024C05D17")) :=
  moveFile_remove_fails keepSourcePlatform exampleFS (utf8 "in/1/AB2024C05D17")
    (utf8 "out/AB2024C05D17") [7, 8, 9] 13 rfl (by decide) rfl (by decide) rfl rfl rfl

/-- A walk that meets no candidate (every entry is visited without a traversal error and is
a directory or smaller than `minFileSize`) makes no move and creates no folder: it returns
`nil`, leaves the file system as it was and logs nothing. -/
theorem processDirectory_no_candidates (pf : Platform) (sourceDir targetBaseDir : GoString)
    (minFileSize : Int) (template : GoString) (fs : FileSystem) (visits : List Visit)
    (h : ∀ v ∈ visits, v.err = none ∧ (v.info.isDir = true ∨ v.info.size < minFileSize)) :
    processDirectory pf sourceDir targetBaseDir minFileSize template fs visits
      = .returned fs none [] := by
  induction visits with
  | nil => rfl
  | cons v vs ih =>
    obtain ⟨he, hv⟩ := h v (by simp)
    have hskip : ¬ (v.info.isDir = false ∧ minFileSize ≤ v.info.size) := by
      rintro ⟨h1, h2⟩
      rcases hv with hv | hv
      · rw [h1] at hv; cases hv
      · omega
    rw [processDirectory, he,
      processDirectoryStep_skip pf sourceDir targetBaseDir minFileSize template fs v.path
        v.info hskip]
    simp only []
    rw [ih (fun w hw => h w (by simp [hw]))]
    rfl

/-- A walk that meets no candidate, at the example file system: the directory `in/1` and
the small file `in/1/notes`. -/
theorem processDirectory_no_candidates_witness :
    processDirectory examplePlatform (utf8 "in/1") (utf8 "out") 2 (utf8 "??ГГГГ?ММ?ДД")
      exampleFS
      [⟨utf8 "in/1", { name := utf8 "1", size := 4096, isDir := true }, none⟩,
        ⟨utf8 "in/1/notes", notesInfo, none⟩]
      = .returned exampleFS none [] :=
  processDirectory_no_candidates examplePlatform (utf8 "in/1") (utf8 "out") 2
    (utf8 "??ГГГГ?ММ?ДД") exampleFS _ (by decide)

end FilesTransfer
